import Mathlib

/-!
Verification development for the settings backup/restore pipeline of the
`settings-backup-v3` plugin (files `src/export.ts`, `src/import.ts`, and the
storage shim `createStorage`).

Modelling conventions:
* Binary blobs (`Uint8Array`) are `List Nat`.
* JavaScript objects with optional keys are structures with `Option` fields;
  `delete obj.k` is modelled by setting the field to `none`.
* The untyped remainder of the settings object (all keys this pipeline never
  touches) is carried as an `extra` association list that round-trips opaquely.
* ZIP entries are modelled structurally: a module-asset entry
  `module-assets/<moduleId>/<filename>` is the pair of its two path
  components plus its decoded content (JSZip stores the base64 body with the
  `base64` flag, so the entry's decoded bytes equal the bytes handed to
  `file(...)`; the base64 encode/decode pair is invertible and elided).
* Host functions (`getFileSrc`+`fetch`, `forageStorage`, IndexedDB,
  `saveAsset`) are oracles supplied in environment records.  A strategy that
  throws is distinguished from one that returns an empty result by the
  `Outcome` type.  `saveAsset` success is an oracle indexed by call number and
  a successful call returns the host-minted key `mint n`.
-/

set_option maxRecDepth 4000

namespace Risu

abbrev Bytes := List Nat

/-- Outcome of one host call: a value, an empty/negative result, or a thrown
error (which the shim catches). -/
inductive Outcome (α : Type) where
  | val (a : α)
  | empty
  | err
deriving DecidableEq

/-- One entry of a module's `assets` list: the tuple
`[assetId, storageKey, ext]` from the source. An absent/empty extension is
modelled by `ext = ""` (JavaScript falsiness). -/
structure MAsset where
  assetId : String
  storageKey : String
  ext : String
deriving DecidableEq

/-- A `db.modules` element: its `id`, its optional `assets` array, and the
rest of its fields carried opaquely. -/
structure Module where
  id : String
  assets : Option (List MAsset)
  rest : String
deriving DecidableEq

/-- A `db.personas` element: `name`, optional `icon` reference, and the rest
of its fields carried opaquely. -/
structure Persona where
  name : String
  icon : Option String
  rest : String
deriving DecidableEq

/-- The live RisuAI database object, restricted to the fields the pipeline
reads, writes, or deletes, plus an opaque passthrough for everything else. -/
structure Database where
  characters : Option (List String)
  characterOrder : Option (List String)
  account : Option String
  modules : Option (List Module)
  personas : Option (List Persona)
  customBackground : Option String
  extra : List (String × String)
deriving DecidableEq

/-- The `settings.json` object: the database fields plus the export metadata
keys. A `none` metadata field models an absent key. -/
structure Snapshot where
  characters : Option (List String)
  characterOrder : Option (List String)
  account : Option String
  modules : Option (List Module)
  personas : Option (List Persona)
  customBackground : Option String
  extra : List (String × String)
  exportDate : Option String
  exportVersion : Option String
  pluginName : Option String
  accountExcluded : Option Bool
deriving DecidableEq

/-- A ZIP entry `module-assets/<moduleId>/<fname>` with decoded content. -/
structure MFile where
  moduleId : String
  fname : String
  content : Bytes
deriving DecidableEq

/-- The backup ZIP, structurally: the optional `settings.json` entry and the
file entries of the three asset folders, in insertion order. -/
structure Archive where
  settings : Option Snapshot
  moduleFiles : List MFile
  personaFiles : List (String × Bytes)
  bgFiles : List (String × Bytes)
deriving DecidableEq

/-- Host environment seen by the storage shim `createStorage`:
`isTauri` is `isTauriEnvironment()`, `forage` tells whether a key-value store
(`forageStorage`/`localforage`) object exists, and the remaining fields are
the oracles for `getFileSrc`, `fetch`, the key-value store and IndexedDB. -/
structure StorageEnv where
  isTauri : Bool
  forage : Bool
  fileSrc : String → Outcome String
  fetchUrl : String → Outcome Bytes
  forageGet : String → Outcome Bytes
  forageSetOk : String → Bool
  idbGet : String → Outcome Bytes
  idbSetOk : String → Bool

/-- Strategy 1 of `getItem`: `getFileSrc` then `fetch`.  The source checks
that the URL is non-empty but returns the fetched bytes without any length
check; a throw anywhere is caught and falls through (`none`). -/
def strat1 (env : StorageEnv) (key : String) : Option Bytes :=
  match env.fileSrc key with
  | .val url =>
      if url.length > 0 then
        match env.fetchUrl url with
        | .val b => some b
        | .empty => none
        | .err => none
      else none
  | .empty => none
  | .err => none

/-- Strategy 2 of `getItem`: `forageStorage.getItem`, guarded by the store
existing, successful only when the data is non-empty; throws are caught. -/
def strat2 (env : StorageEnv) (key : String) : Option Bytes :=
  if env.forage then
    match env.forageGet key with
    | .val b => if b.length > 0 then some b else none
    | .empty => none
    | .err => none
  else none

/-- Strategy 3 of `getItem`: manual IndexedDB access, successful only when
the data is non-empty; errors resolve to `null` and are treated as misses. -/
def strat3 (env : StorageEnv) (key : String) : Option Bytes :=
  match env.idbGet key with
  | .val b => if b.length > 0 then some b else none
  | .empty => none
  | .err => none

/-- `createStorage().getItem`: strategy 1, then strategy 2, then — skipped
entirely in the Tauri environment — strategy 3; `none` models returning
`null`. -/
def shimGetItem (env : StorageEnv) (key : String) : Option Bytes :=
  match strat1 env key with
  | some b => some b
  | none =>
    match strat2 env key with
    | some b => some b
    | none => if env.isTauri then none else strat3 env key

/-- Result of `createStorage().setItem`: a completed write, a rejection from
the key-value store, the explicit Tauri "not supported" error, or an
IndexedDB failure. -/
inductive SetResult where
  | ok (key : String) (v : Bytes)
  | storeErr
  | notSupported
  | idbErr
deriving DecidableEq

/-- `createStorage().setItem`: write through the key-value store when one
exists, throw the "Tauri import not yet supported" error when in Tauri with
no store, otherwise write IndexedDB directly. -/
def shimSetItem (env : StorageEnv) (key : String) (v : Bytes) : SetResult :=
  if env.forage then
    if env.forageSetOk key then .ok key v else .storeErr
  else if env.isTauri then .notSupported
  else if env.idbSetOk key then .ok key v else .idbErr

/-- JavaScript `s.startsWith(p)`, on code points. -/
def strStartsWith (s p : String) : Bool :=
  p.toList.isPrefixOf s.toList

/-- JavaScript `s.endsWith(p)`, on code points. -/
def strEndsWith (s p : String) : Bool :=
  p.toList.isSuffixOf s.toList

/-- Decimal digits of a natural number, most significant first (fuel-based
so that it evaluates by kernel reduction); the fuel always suffices since a
number has at most as many digits as its value. -/
def natDigitsAux : Nat → Nat → List Char
  | 0, _ => []
  | fuel + 1, n =>
    if n < 10 then [Nat.digitChar n]
    else natDigitsAux fuel (n / 10) ++ [Nat.digitChar (n % 10)]

/-- Decimal digits of a natural number, most significant first; models the
JavaScript template interpolation of an integer index. -/
def natDigits (n : Nat) : List Char :=
  natDigitsAux (n + 1) n

/-- Decimal rendering of a natural number as a string. -/
def natToStr (n : Nat) : String :=
  String.mk (natDigits n)

/-- Value of a list of decimal digit characters, models `parseInt(s, 10)` on
a digits-only string. -/
def digitsToNat (cs : List Char) : Nat :=
  cs.foldl (fun a c => 10 * a + (c.toNat - 48)) 0

/-- Split a character list at its last `'.'`: models
`filename.lastIndexOf('.')` followed by the two `substring` calls; `none`
when there is no dot. -/
def splitAtLastDot : List Char → Option (List Char × List Char)
  | [] => none
  | c :: rest =>
    match splitAtLastDot rest with
    | some (pre, ext) => some (c :: pre, ext)
    | none => if c = '.' then some ([], rest) else none

/-- String version of `splitAtLastDot`: the import's `(assetId, ext)`
extraction from a module-asset filename. -/
def splitExt (s : String) : Option (String × String) :=
  (splitAtLastDot s.toList).map (fun p => (String.mk p.1, String.mk p.2))

/-- Strip an expected leading character sequence, returning the remainder. -/
def stripLead : List Char → List Char → Option (List Char)
  | [], s => some s
  | _ :: _, [] => none
  | p :: ps, c :: cs => if p = c then stripLead ps cs else none

/-- The import's persona-icon filename match `^persona-(\d+)\.(.+)$`:
the literal stem, one or more digits (greedy, so all leading digits), a dot,
and a non-empty remainder; yields `(parseInt(digits), ext)`. -/
def parsePersonaFname (s : String) : Option (Nat × String) :=
  match stripLead "persona-".toList s.toList with
  | none => none
  | some rest =>
    let digs := rest.takeWhile Char.isDigit
    let rest' := rest.dropWhile Char.isDigit
    if digs.isEmpty then none
    else
      match rest' with
      | '.' :: extChars =>
          if extChars.isEmpty then none
          else some (digitsToNat digs, String.mk extChars)
      | _ => none

/-- Export-side resolver: the outcome of `storage.getItem(key)` as the export
loop sees it — `none` covers both a `null` result and a caught throw, either
of which makes the loop skip the asset. -/
abbrev Resolver := String → Option Bytes

/-- Insert-or-overwrite on the `moduleAssets` dictionary
(`moduleAssets[module.id] = module.assets`): updating an existing key keeps
its position, a new key is appended (JavaScript object key order). -/
def upsert (acc : List (String × List MAsset)) (k : String) (v : List MAsset) :
    List (String × List MAsset) :=
  if acc.any (fun p => p.1 = k) then
    acc.map (fun p => if p.1 = k then (k, v) else p)
  else acc ++ [(k, v)]

/-- The export's first loop: collect `module.assets` into the per-module-id
dictionary, for modules whose `assets` is an array. -/
def collectModuleAssets (ms : List Module) : List (String × List MAsset) :=
  ms.foldl (fun acc m =>
    match m.assets with
    | some as => upsert acc m.id as
    | none => acc) []

/-- Effective extension of a module asset: `assetExt || 'png'`. -/
def effExt (e : String) : String :=
  if e = "" then "png" else e

/-- One iteration of the export's module-asset loop: skip falsy ids/keys,
skip assets whose bytes do not resolve, otherwise emit the ZIP entry, not
duplicating the extension when `assetId` already ends with it. -/
def mkModuleFile (resolve : Resolver) (mid : String) (a : MAsset) : Option MFile :=
  if a.assetId = "" ∨ a.storageKey = "" then none
  else
    match resolve a.storageKey with
    | none => none
    | some bytes =>
      let ext := effExt a.ext
      let fname := if strEndsWith a.assetId ("." ++ ext) then a.assetId
                   else a.assetId ++ "." ++ ext
      some ⟨mid, fname, bytes⟩

/-- The `module-assets/` folder of the archive. -/
def exportModuleFiles (resolve : Resolver) (db : Database) : List MFile :=
  (collectModuleAssets (db.modules.getD [])).flatMap
    (fun g => g.2.filterMap (mkModuleFile resolve g.1))

/-- The export's persona scan, from index `i`: personas whose `icon` is a
local-storage reference (`startsWith('assets/')`), with their index. -/
def personaIconsFrom (i : Nat) : List Persona → List (Nat × String)
  | [] => []
  | p :: ps =>
    match p.icon with
    | some ic =>
        if strStartsWith ic "assets/" then (i, ic) :: personaIconsFrom (i + 1) ps
        else personaIconsFrom (i + 1) ps
    | none => personaIconsFrom (i + 1) ps

/-- The `persona-icons/` folder: each resolving icon is stored as
`persona-<index>.png` — the `.png` suffix is hard-coded in the source. -/
def exportPersonaFiles (resolve : Resolver) (db : Database) : List (String × Bytes) :=
  (personaIconsFrom 0 (db.personas.getD [])).filterMap
    (fun p => (resolve p.2).map (fun b => ("persona-" ++ natToStr p.1 ++ ".png", b)))

/-- The `custom-background/` folder: at most one entry, present when the
reference is local and resolves; its extension is the last `'.'`-separated
part of the reference path, defaulting to `png`. -/
def exportBgFiles (resolve : Resolver) (db : Database) : List (String × Bytes) :=
  match db.customBackground with
  | some bg =>
      if strStartsWith bg "assets/" then
        match resolve bg with
        | some b =>
            let ext := match splitAtLastDot bg.toList with
                       | some p => String.mk p.2
                       | none => "png"
            [("background." ++ ext, b)]
        | none => []
      else []
  | none => []

/-- The trimmed `settings.json` snapshot: shallow copy of the database minus
`characters`/`characterOrder`, minus `account` when `excludeAccount`, with
per-module asset lists stripped and the four metadata keys added. -/
def makeSnapshot (db : Database) (excludeAccount : Bool) (now : String) : Snapshot where
  characters := none
  characterOrder := none
  account := if excludeAccount then none else db.account
  modules := db.modules.map (fun ms => ms.map (fun m => { m with assets := none }))
  personas := db.personas
  customBackground := db.customBackground
  extra := db.extra
  exportDate := some now
  exportVersion := some "3.1.0"
  pluginName := some "settingsbackup-v3"
  accountExcluded := some excludeAccount

/-- `exportSettings`: the archive produced from the live database, an
`excludeAccount` option (source default `true`), the storage resolver, and
the export date.  Delivery (share sheet / anchor / `window.open`) is out of
scope; the archive is always generated with its `settings.json` entry. -/
def exportSettings (db : Database) (excludeAccount : Bool) (resolve : Resolver)
    (now : String) : Archive where
  settings := some (makeSnapshot db excludeAccount now)
  moduleFiles := exportModuleFiles resolve db
  personaFiles := exportPersonaFiles resolve db
  bgFiles := exportBgFiles resolve db

/-- Import-side host environment: the storage shim's environment, the
per-call success oracle for the host's `saveAsset` primitive, and the storage
key the host mints for the n-th `saveAsset` call. -/
structure ImportEnv where
  storage : StorageEnv
  saveOk : Nat → Bool
  mint : Nat → String

/-- Mutable state threaded through the import's restore loops: the number of
`saveAsset` calls made so far and the log of completed asset-storage writes
(by `saveAsset` or by the shim's `setItem` fallback), in order. -/
structure ImpState where
  calls : Nat
  writes : List (String × Bytes)
deriving DecidableEq

/-- One `saveAsset(data, id, fileName)` call: on success the host mints a new
storage key and stores the bytes under it; on failure (`none`) the bytes are
not stored.  Either way the call counter advances. -/
def trySaveAsset (env : ImportEnv) (s : ImpState) (b : Bytes) :
    Option String × ImpState :=
  if env.saveOk s.calls then
    (some (env.mint s.calls),
     ⟨s.calls + 1, s.writes ++ [(env.mint s.calls, b)]⟩)
  else (none, ⟨s.calls + 1, s.writes⟩)

/-- One iteration of the import's module-asset loop.  The filename must
split at its last dot; `saveAsset` is tried first; on its failure the Tauri
check throws an error that the enclosing per-asset `catch` swallows (the
asset is dropped), and outside Tauri the shim's `setItem` fallback stores
under the literal key `assets/<assetId>.<ext>`; any fallback failure is also
swallowed per-asset. -/
def restoreOneModuleFile (env : ImportEnv) (f : MFile) (s : ImpState) :
    Option (String × MAsset) × ImpState :=
  match splitExt f.fname with
  | none => (none, s)
  | some (assetId, ext) =>
    match trySaveAsset env s f.content with
    | (some key, s') => (some (f.moduleId, ⟨assetId, key, ext⟩), s')
    | (none, s') =>
      if env.storage.isTauri then (none, s')
      else
        match shimSetItem env.storage ("assets/" ++ assetId ++ "." ++ ext) f.content with
        | .ok _ _ =>
            (some (f.moduleId, ⟨assetId, "assets/" ++ assetId ++ "." ++ ext, ext⟩),
             { s' with writes := s'.writes ++
                 [("assets/" ++ assetId ++ "." ++ ext, f.content)] })
        | _ => (none, s')

/-- The import's module-asset loop over all `module-assets/` entries,
accumulating the flat `(moduleId, restored asset)` log (the
`moduleAssets[moduleId].push(...)` dictionary, flattened in push order). -/
def restoreModuleFiles (env : ImportEnv) :
    List MFile → ImpState → List (String × MAsset) × ImpState
  | [], s => ([], s)
  | f :: fs, s =>
    match restoreOneModuleFile env f s with
    | (some e, s') =>
        let r := restoreModuleFiles env fs s'
        (e :: r.1, r.2)
    | (none, s') => restoreModuleFiles env fs s'

/-- Rewrite `personas[i].icon` to the new storage key, when that persona
exists in the imported snapshot (`importedSettings.personas?.[i]`); an
out-of-range index leaves the list unchanged. -/
def setIconAt : List Persona → Nat → String → List Persona
  | [], _, _ => []
  | p :: ps, 0, key => { p with icon := some key } :: ps
  | p :: ps, i + 1, key => p :: setIconAt ps i key

/-- One iteration of the import's persona-icon loop: filenames that fail
the `^persona-(\d+)\.(.+)$` match are skipped; `saveAsset` first, Tauri
escalation swallowed by the per-icon `catch`, non-Tauri fallback under the
literal key `persona-icon-<i>.<ext>`. -/
def restoreOnePersona (env : ImportEnv) (fname : String) (content : Bytes)
    (snap : Snapshot) (s : ImpState) : Snapshot × ImpState :=
  match parsePersonaFname fname with
  | none => (snap, s)
  | some (idx, ext) =>
    match trySaveAsset env s content with
    | (some key, s') =>
        ({ snap with personas := snap.personas.map (fun ps => setIconAt ps idx key) }, s')
    | (none, s') =>
      if env.storage.isTauri then (snap, s')
      else
        match shimSetItem env.storage ("persona-icon-" ++ natToStr idx ++ "." ++ ext) content with
        | .ok _ _ =>
            ({ snap with personas := snap.personas.map (fun ps =>
                 setIconAt ps idx ("persona-icon-" ++ natToStr idx ++ "." ++ ext)) },
             { s' with writes := s'.writes ++
                 [("persona-icon-" ++ natToStr idx ++ "." ++ ext, content)] })
        | _ => (snap, s')

/-- The import's persona-icon loop over all `persona-icons/` entries. -/
def restorePersonaFiles (env : ImportEnv) :
    List (String × Bytes) → Snapshot → ImpState → Snapshot × ImpState
  | [], snap, s => (snap, s)
  | (fname, content) :: fs, snap, s =>
    let r := restoreOnePersona env fname content snap s
    restorePersonaFiles env fs r.1 r.2

/-- Import-side background extension: `filename.split('.').pop() || 'png'` —
the part after the last dot (the whole name when there is no dot), with
`png` replacing an empty result. -/
def bgImportExt (fname : String) : String :=
  let e := match splitAtLastDot fname.toList with
           | some p => String.mk p.2
           | none => fname
  if e = "" then "png" else e

/-- The import's custom-background step: only the first `custom-background/`
entry is considered; the extension is the last `'.'`-separated part of the
filename, defaulting to `png` when empty; same `saveAsset`/fallback/swallow
structure, the fallback key being `assets/custom-background.<ext>`. -/
def restoreBg (env : ImportEnv) (bgFiles : List (String × Bytes))
    (snap : Snapshot) (s : ImpState) : Snapshot × ImpState :=
  match bgFiles with
  | [] => (snap, s)
  | (fname, content) :: _ =>
    match trySaveAsset env s content with
    | (some key, s') => ({ snap with customBackground := some key }, s')
    | (none, s') =>
      if env.storage.isTauri then (snap, s')
      else
        match shimSetItem env.storage
            ("assets/custom-background." ++ bgImportExt fname) content with
        | .ok _ _ =>
            ({ snap with customBackground := some ("assets/custom-background." ++ bgImportExt fname) },
             { s' with writes := s'.writes ++
                 [("assets/custom-background." ++ bgImportExt fname, content)] })
        | _ => (snap, s')

/-- Re-attach the grouped restored assets onto the snapshot's `modules`
array: a module gets `assets` set when its id recovered at least one asset,
and is left untouched otherwise. -/
def reattachAssets (snap : Snapshot) (groups : List (String × MAsset)) : Snapshot :=
  { snap with
    modules := snap.modules.map (fun ms => ms.map (fun m =>
      let assets := (groups.filter (fun g => g.1 = m.id)).map (fun g => g.2)
      if assets.length > 0 then { m with assets := some assets } else m)) }

/-- Project the fully assembled snapshot into the object handed to
`setDatabase` (the metadata keys have been deleted at this point). -/
def snapToDb (s : Snapshot) : Database where
  characters := s.characters
  characterOrder := s.characterOrder
  account := s.account
  modules := s.modules
  personas := s.personas
  customBackground := s.customBackground
  extra := s.extra

/-- Observable result of one `importSettings` run: the error alert shown (if
the pipeline aborted), the database committed via `setDatabase` (if it got
that far), and the asset-storage writes performed, in order. -/
structure ImportRun where
  alert : Option String
  committed : Option Database
  writes : List (String × Bytes)
deriving DecidableEq

/-- `importSettings`: `zipData = none` models bytes that fail to parse as a
ZIP (`JSZip.loadAsync` throws); a missing `settings.json` throws before any
read of the live database; the confirmation dialog's two booleans are the
operator inputs `confirmed` and `preserveAccount`; then the three restore
loops run, the metadata keys are deleted, assets are re-attached,
`characters`/`characterOrder` and conditionally `account` are spliced back
from the live database, and the result is committed. -/
def importSettings (env : ImportEnv) (zipData : Option Archive)
    (confirmed preserveAccount : Bool) (db : Database) : ImportRun :=
  match zipData with
  | none => ⟨some "Import failed: invalid ZIP file", none, []⟩
  | some zip =>
    match zip.settings with
    | none => ⟨some "Import failed: settings.json not found in ZIP file", none, []⟩
    | some snap0 =>
      if confirmed = false then ⟨none, none, []⟩
      else
        let currentCharacters := db.characters
        let currentCharacterOrder := db.characterOrder
        let currentAccount := db.account
        let r1 := restoreModuleFiles env zip.moduleFiles ⟨0, []⟩
        let r2 := restorePersonaFiles env zip.personaFiles snap0 r1.2
        let r3 := restoreBg env zip.bgFiles r2.1 r2.2
        let snap3 := { r3.1 with exportDate := none, exportVersion := none,
                                 pluginName := none }
        let snap4 := reattachAssets snap3 r1.1
        let snap5 := { snap4 with characters := currentCharacters,
                                  characterOrder := currentCharacterOrder }
        let snap6 := if preserveAccount && currentAccount.isSome then
                       { snap5 with account := currentAccount }
                     else snap5
        let snap7 := { snap6 with accountExcluded := none }
        ⟨none, some (snapToDb snap7), r3.2.writes⟩

/-! ### Claim-side definitions (written from the spec's words, for comparison
with the source-derived functions) and expected-output mirrors used to state
closed forms. -/

/-- Raw result of the key-value-store strategy, as the spec's `getItem`
contract sees it: the stored value when the store exists and the read does
not throw, with no emptiness judgement applied yet. -/
def rawStrat2 (env : StorageEnv) (key : String) : Option Bytes :=
  if env.forage then
    match env.forageGet key with
    | .val b => some b
    | .empty => none
    | .err => none
  else none

/-- Raw result of the direct-IndexedDB strategy, with no emptiness judgement
applied yet. -/
def rawStrat3 (env : StorageEnv) (key : String) : Option Bytes :=
  match env.idbGet key with
  | .val b => some b
  | .empty => none
  | .err => none

/-- First non-empty result of a strategy list (the spec's words for the
`getItem` contract): unavailable strategies contribute `none`, an available
strategy's empty result is passed over. -/
def firstNonEmpty : List (Option Bytes) → Option Bytes
  | [] => none
  | some b :: rest => if b.length > 0 then some b else firstNonEmpty rest
  | none :: rest => firstNonEmpty rest

/-- Modelled from the spec: the claimed `getItem` contract — try the three
strategies in priority order, skip direct database access in Tauri, and
return the first non-empty result. -/
def claimGetItem (env : StorageEnv) (key : String) : Option Bytes :=
  firstNonEmpty [strat1 env key, rawStrat2 env key,
                 if env.isTauri then none else rawStrat3 env key]

/-- Modelled from the spec, amended: strategy 1's fetched bytes are returned
whenever the URL resolves non-empty and the fetch succeeds — even when the
body is empty; only strategies 2 and 3 are subject to the first-non-empty
rule. -/
def amendedGetItem (env : StorageEnv) (key : String) : Option Bytes :=
  match strat1 env key with
  | some b => some b
  | none => firstNonEmpty [rawStrat2 env key,
                           if env.isTauri then none else rawStrat3 env key]

/-- Replace a thrown error by a plain empty result. -/
def degradeOut {α : Type} : Outcome α → Outcome α
  | .err => .empty
  | o => o

/-- The same environment with every strategy's throws turned into plain
misses; `getItem` being invariant under this expresses that an error in one
strategy never prevents evaluation of the next. -/
def degradeEnv (env : StorageEnv) : StorageEnv :=
  { env with
    fileSrc := fun k => degradeOut (env.fileSrc k)
    fetchUrl := fun k => degradeOut (env.fetchUrl k)
    forageGet := fun k => degradeOut (env.forageGet k)
    idbGet := fun k => degradeOut (env.idbGet k) }

/-- Modelled from the spec: the claimed exclusion invariant of the exported
snapshot — no `characters` key, no `characterOrder` key, and an `account`
key present exactly when `excludeAccount` was false. -/
def exclusionClaimB (db : Database) (excl : Bool) (now : String) : Bool :=
  let s := makeSnapshot db excl now
  (s.characters == none) && (s.characterOrder == none) &&
  (s.account.isSome == !excl)

/-- Pointwise lifting of a Boolean relation to equally long lists. -/
def listAll2 {α β : Type} (f : α → β → Bool) : List α → List β → Bool
  | [], [] => true
  | a :: as, b :: bs => f a b && listAll2 f as bs
  | _, _ => false

/-- Pointwise lifting of a Boolean relation to `Option`s (strict: presence
must match). -/
def optAll2 {α β : Type} (f : α → β → Bool) : Option α → Option β → Bool
  | none, none => true
  | some a, some b => f a b
  | _, _ => false

/-- Membership of a completed write in the write log. -/
def memW (w : List (String × Bytes)) (k : String) (b : Bytes) : Bool :=
  decide ((k, b) ∈ w)

/-- Asset tuple equality up to the storage key (the claim's "only the
storage-key identity allowed to differ"). -/
def assetEqUpToKeyB (a a' : MAsset) : Bool :=
  (a'.assetId == a.assetId) && (a'.ext == a.ext)

/-- Strict field equality of a module's `assets` up to storage keys. -/
def assetsEqUpToKeyB : Option (List MAsset) → Option (List MAsset) → Bool
  | none, none => true
  | some as, some bs => listAll2 assetEqUpToKeyB as bs
  | _, _ => false

/-- Module equality up to storage keys. -/
def moduleEqUpToKeyB (m m' : Module) : Bool :=
  (m'.id == m.id) && (m'.rest == m.rest) && assetsEqUpToKeyB m.assets m'.assets

/-- Persona equality up to storage keys: a locally stored icon reference is
itself a storage key and may change; anything else must be preserved. -/
def personaEqUpToKeyB (p p' : Persona) : Bool :=
  (p'.name == p.name) && (p'.rest == p.rest) &&
  (match p.icon with
   | some ic => if strStartsWith ic "assets/" then true else p'.icon == p.icon
   | none => p'.icon == none)

/-- Custom-background equality up to storage keys. -/
def bgEqUpToKeyB : Option String → Option String → Bool
  | some bg, obg' =>
      if strStartsWith bg "assets/" then true else obg' == some bg
  | none, obg' => obg' == none

/-- Every asset that made it into the archive has its exact bytes somewhere
in the import's write log (the claim's byte-for-byte restoration). -/
def archiveBytesRestoredB (E : Archive) (w : List (String × Bytes)) : Bool :=
  E.moduleFiles.all (fun f => w.any (fun x => x.2 == f.content)) &&
  E.personaFiles.all (fun f => w.any (fun x => x.2 == f.2)) &&
  E.bgFiles.all (fun f => w.any (fun x => x.2 == f.2))

/-- Modelled from the spec: the round-trip claim as stated — after importing
`export(D)` into live database `D`, every settings field other than
`characters`, `characterOrder` and (when preserved) `account` equals `D`'s,
storage-key identity excepted, and every archived asset is restored
byte-for-byte. -/
def roundTripClaimB (preserve : Bool) (E : Archive) (run : ImportRun)
    (D D' : Database) : Bool :=
  (D'.extra == D.extra) &&
  (preserve || (D'.account == D.account)) &&
  optAll2 (fun a b => listAll2 moduleEqUpToKeyB a b) D.modules D'.modules &&
  optAll2 (fun a b => listAll2 personaEqUpToKeyB a b) D.personas D'.personas &&
  bgEqUpToKeyB D.customBackground D'.customBackground &&
  archiveBytesRestoredB E run.writes

/-- Amended per-asset restoration: identity fields preserved, and the new
storage key holds the original resolved bytes in the write log. -/
def assetRestoredB (w : List (String × Bytes)) (resolve : Resolver)
    (a a' : MAsset) : Bool :=
  (a'.assetId == a.assetId) && (a'.ext == a.ext) &&
  (match resolve a.storageKey with
   | some b => memW w a'.storageKey b
   | none => false)

/-- Amended `assets`-field restoration: an absent list stays absent, and a
present-but-empty list comes back as an absent key (the importer only
re-attaches non-empty recovered groups). -/
def assetsRestoredB (w : List (String × Bytes)) (resolve : Resolver) :
    Option (List MAsset) → Option (List MAsset) → Bool
  | none, none => true
  | some [], none => true
  | some (a :: as), some bs => listAll2 (assetRestoredB w resolve) (a :: as) bs
  | _, _ => false

/-- Amended per-module restoration. -/
def moduleRestoredB (w : List (String × Bytes)) (resolve : Resolver)
    (m m' : Module) : Bool :=
  (m'.id == m.id) && (m'.rest == m.rest) && assetsRestoredB w resolve m.assets m'.assets

/-- Amended per-persona restoration: a locally stored icon is rewritten to a
key holding the original bytes; any other icon value is untouched. -/
def personaRestoredB (w : List (String × Bytes)) (resolve : Resolver)
    (p p' : Persona) : Bool :=
  (p'.name == p.name) && (p'.rest == p.rest) &&
  (match p.icon with
   | some ic =>
     if strStartsWith ic "assets/" then
       match p'.icon, resolve ic with
       | some k, some b => memW w k b
       | _, _ => false
     else p'.icon == p.icon
   | none => p'.icon == none)

/-- Amended custom-background restoration. -/
def bgRestoredB (w : List (String × Bytes)) (resolve : Resolver) :
    Option String → Option String → Bool
  | some bg, obg' =>
      if strStartsWith bg "assets/" then
        match obg', resolve bg with
        | some k, some b => memW w k b
        | _, _ => false
      else obg' == some bg
  | none, obg' => obg' == none

/-! ### Expected-output mirrors: the closed forms the pipelines compute under
the amended round-trip hypotheses, used to state and chain the key lemmas. -/

/-- Expected `module-assets/` entries when every asset is well formed and
resolves: per module, in order, filename `<assetId>.<ext>`. -/
def moduleFilesFor (resolve : Resolver) : List Module → List MFile
  | [] => []
  | m :: ms =>
    (match m.assets with
     | some as => as.map (fun a =>
         ⟨m.id, a.assetId ++ "." ++ a.ext, (resolve a.storageKey).getD []⟩)
     | none => []) ++ moduleFilesFor resolve ms

/-- Expected restored asset tuples for one module's list, minting keys from
call number `k`. -/
def restoredAssetsFor (env : ImportEnv) : Nat → List MAsset → List MAsset
  | _, [] => []
  | k, a :: as => ⟨a.assetId, env.mint k, a.ext⟩ :: restoredAssetsFor env (k + 1) as

/-- Expected flat tagged restore log for a module list. -/
def moduleEntriesFor (env : ImportEnv) : Nat → List Module → List (String × MAsset)
  | _, [] => []
  | k, m :: ms =>
    (match m.assets with
     | some as => (restoredAssetsFor env k as).map (fun a => (m.id, a))
     | none => []) ++ moduleEntriesFor env (k + (m.assets.getD []).length) ms

/-- Expected write log for one module's asset list. -/
def assetWritesFor (env : ImportEnv) (resolve : Resolver) :
    Nat → List MAsset → List (String × Bytes)
  | _, [] => []
  | k, a :: as =>
    (env.mint k, (resolve a.storageKey).getD []) :: assetWritesFor env resolve (k + 1) as

/-- Expected write log for a module list. -/
def moduleWritesFor (env : ImportEnv) (resolve : Resolver) :
    Nat → List Module → List (String × Bytes)
  | _, [] => []
  | k, m :: ms =>
    (match m.assets with
     | some as => assetWritesFor env resolve k as
     | none => []) ++ moduleWritesFor env resolve (k + (m.assets.getD []).length) ms

/-- Total number of module assets, i.e. of `saveAsset` calls the module loop
makes when everything is well formed. -/
def moduleAssetTotal : List Module → Nat
  | [] => 0
  | m :: ms => (m.assets.getD []).length + moduleAssetTotal ms

/-- Expected `persona-icons/` entries from absolute persona index `n`. -/
def personaFilesFor (resolve : Resolver) : Nat → List Persona → List (String × Bytes)
  | _, [] => []
  | n, p :: ps =>
    match p.icon with
    | some ic =>
        if strStartsWith ic "assets/" then
          ("persona-" ++ natToStr n ++ ".png", (resolve ic).getD []) ::
            personaFilesFor resolve (n + 1) ps
        else personaFilesFor resolve (n + 1) ps
    | none => personaFilesFor resolve (n + 1) ps

/-- Expected personas after icon rewriting, minting keys from call number
`k`. -/
def updatedPersonas (env : ImportEnv) : Nat → List Persona → List Persona
  | _, [] => []
  | k, p :: ps =>
    match p.icon with
    | some ic =>
        if strStartsWith ic "assets/" then
          { p with icon := some (env.mint k) } :: updatedPersonas env (k + 1) ps
        else p :: updatedPersonas env k ps
    | none => p :: updatedPersonas env k ps

/-- Expected write log of the persona loop. -/
def personaWritesFor (env : ImportEnv) (resolve : Resolver) :
    Nat → List Persona → List (String × Bytes)
  | _, [] => []
  | k, p :: ps =>
    match p.icon with
    | some ic =>
        if strStartsWith ic "assets/" then
          (env.mint k, (resolve ic).getD []) :: personaWritesFor env resolve (k + 1) ps
        else personaWritesFor env resolve k ps
    | none => personaWritesFor env resolve k ps

/-- Number of exported persona icons. -/
def countIcons : List Persona → Nat
  | [] => 0
  | p :: ps =>
    match p.icon with
    | some ic => if strStartsWith ic "assets/" then countIcons ps + 1 else countIcons ps
    | none => countIcons ps

/-- Well-formedness of one module asset for the amended round trip: truthy
id and key, a dot-free non-empty extension, an id that does not already end
in `.<ext>` (the import splits the filename at its last dot, so any of these
being violated changes the tuple), and resolvable bytes. -/
def assetWFB (resolve : Resolver) (a : MAsset) : Bool :=
  (a.assetId != "") && (a.storageKey != "") && (a.ext != "") &&
  (a.ext.toList.all (fun c => c != '.')) &&
  (!strEndsWith a.assetId ("." ++ a.ext)) &&
  (resolve a.storageKey).isSome

/-! ### Concrete instances used by counterexamples and witnesses. -/

/-- A benign web-mode storage environment (key-value store present). -/
def webStorageEnv : StorageEnv :=
  ⟨false, true, fun _ => .empty, fun _ => .empty, fun _ => .empty,
   fun _ => true, fun _ => .empty, fun _ => true⟩

/-- A benign import environment: web mode, every `saveAsset` call succeeds,
minted keys are `n0`, `n1`, …. -/
def okImportEnv : ImportEnv :=
  ⟨webStorageEnv, fun _ => true, fun n => String.mk ('n' :: natDigits n)⟩

/-- C1 counterexample database: one module whose single asset's id already
ends in its extension. -/
def c1cexDb : Database :=
  ⟨none, none, none,
   some [⟨"m1", some [⟨"icon.png", "assets/icon.png", "png"⟩], "r"⟩],
   none, none, []⟩

/-- C1 counterexample resolver. -/
def c1cexResolve : Resolver :=
  fun k => if k = "assets/icon.png" then some [9] else none

/-- C1 counterexample archive: the export of `c1cexDb`. -/
def c1cexArch : Archive := exportSettings c1cexDb true c1cexResolve "2025-01-01"

/-- C1 counterexample import run: importing that archive back into
`c1cexDb`. -/
def c1cexRun : ImportRun := importSettings okImportEnv (some c1cexArch) true true c1cexDb

/-- C1 witness database: one module with one asset, one persona with a local
icon, a custom background, an account and a passthrough field. -/
def c1witDb : Database :=
  ⟨some ["keepme"], some ["o1"], some "tok",
   some [⟨"m1", some [⟨"icon1", "assets/icon1.png", "png"⟩], "r"⟩],
   some [⟨"p0", some "assets/persona0.png", "q"⟩],
   some "assets/bg.jpg", [("theme", "dark")]⟩

/-- C1 witness resolver. -/
def c1witResolve : Resolver :=
  fun k =>
    if k = "assets/icon1.png" then some [1, 2]
    else if k = "assets/persona0.png" then some [3]
    else if k = "assets/bg.jpg" then some [4, 5]
    else none

/-- C2 counterexample database: no `account` field at all. -/
def c2cexDb : Database := ⟨none, none, none, none, none, none, []⟩

/-- C3 environment: packaged desktop (Tauri), no key-value store, and a
`saveAsset` that always fails. -/
def c3Env : ImportEnv :=
  ⟨⟨true, false, fun _ => .empty, fun _ => .empty, fun _ => .empty,
    fun _ => false, fun _ => .empty, fun _ => false⟩,
   fun _ => false, fun n => String.mk ('n' :: natDigits n)⟩

/-- C3 live database. -/
def c3Db : Database :=
  ⟨some ["c"], none, none, some [⟨"m1", some [⟨"a", "k", "png"⟩], "r"⟩], none, none, []⟩

/-- C3 archive: a valid backup with one module asset to restore. -/
def c3Arch : Archive :=
  ⟨some (makeSnapshot c3Db true "2025-01-01"), [⟨"m1", "icon1.png", [7]⟩], [], []⟩

/-- C4 witness archive: a ZIP with no `settings.json` entry. -/
def c4witArch : Archive := ⟨none, [⟨"m1", "icon1.png", [7]⟩], [], []⟩

/-- C5 witness archive: a backup carrying its own account. -/
def c5witArch : Archive :=
  ⟨some ⟨none, none, some "backupTok", none, none, none, [("a", "1")],
         some "2025-01-01", some "3.1.0", some "settingsbackup-v3", some false⟩,
   [], [], []⟩

/-- C5 witness live database. -/
def c5witDb : Database :=
  ⟨some ["liveChar"], some ["liveOrd"], some "liveTok", none, none, none, []⟩

/-- C5 witness expected final database: live characters/order spliced back,
the backup's own account taking effect (operator chose not to preserve). -/
def c5witFinal : Database :=
  ⟨some ["liveChar"], some ["liveOrd"], some "backupTok", none, none, none, [("a", "1")]⟩

/-- C6 live database, with the characters that must survive. -/
def c6Db : Database :=
  ⟨some ["keepme"], some ["ord"], none, none, none, none, []⟩

/-- C6 archive: the §8 scenario backup — one module `m1` (asset list
stripped from the snapshot) and the archived entry
`module-assets/m1/icon1.png`. -/
def c6Arch : Archive :=
  ⟨some ⟨none, none, none, some [⟨"m1", none, "r"⟩], none, none, [],
         some "2025-01-01", some "3.1.0", some "settingsbackup-v3", some true⟩,
   [⟨"m1", "icon1.png", [137, 80, 78, 71]⟩], [], []⟩

/-- C7 counterexample environment: the URL accessor resolves and the fetch
succeeds with an empty body, while the key-value store holds non-empty
data. -/
def c7cexEnv : StorageEnv :=
  ⟨false, true, fun _ => .val "u", fun _ => .val [], fun _ => .val [1],
   fun _ => true, fun _ => .empty, fun _ => true⟩

/-- C9 witness database: two module assets. -/
def c9witDb : Database :=
  ⟨none, none, none,
   some [⟨"m1", some [⟨"a1", "k1", "png"⟩, ⟨"a2", "k2", "jpg"⟩], "r"⟩],
   none, none, []⟩

/-- C9 witness resolver: the second asset fails to resolve. -/
def c9witResolve : Resolver :=
  fun k => if k = "k1" then some [1] else none

/-- C10 witness database: one persona with a local non-png icon. -/
def c10witDb : Database :=
  ⟨none, none, none, none, some [⟨"p", some "assets/me.webp", "q"⟩], none, []⟩

/-- C10 witness resolver. -/
def c10witResolve : Resolver :=
  fun k => if k = "assets/me.webp" then some [8] else none

/-- Strip a module's `assets` key (the export's per-module destructuring). -/
def stripModule (m : Module) : Module := { m with assets := none }

/-- Expected final `modules` array of the amended round trip: each module
with a non-empty asset list gets the restored tuples with minted keys, any
other module comes back without an `assets` key. -/
def finalModules (env : ImportEnv) : Nat → List Module → List Module
  | _, [] => []
  | k, m :: ms =>
    (match m.assets with
     | some (a :: as) => { m with assets := some (restoredAssetsFor env k (a :: as)) }
     | some [] => { m with assets := none }
     | none => { m with assets := none }) ::
      finalModules env (k + (m.assets.getD []).length) ms

/-- Expected write log of the custom-background step. -/
def bgWritesFor (env : ImportEnv) (resolve : Resolver) (k : Nat) :
    Option String → List (String × Bytes)
  | some bg =>
      if strStartsWith bg "assets/" then
        match resolve bg with
        | some b => [(env.mint k, b)]
        | none => []
      else []
  | none => []

/-- Expected final `customBackground` reference. -/
def bgFinal (env : ImportEnv) (resolve : Resolver) (k : Nat) :
    Option String → Option String
  | some bg =>
      if strStartsWith bg "assets/" then
        match resolve bg with
        | some _ => some (env.mint k)
        | none => some bg
      else some bg
  | none => none

/-- The complete expected write log of the amended round trip: module asset
writes, then persona-icon writes, then the background write. -/
def expectedWrites (env : ImportEnv) (resolve : Resolver) (D : Database) :
    List (String × Bytes) :=
  moduleWritesFor env resolve 0 (D.modules.getD []) ++
  personaWritesFor env resolve (moduleAssetTotal (D.modules.getD [])) (D.personas.getD []) ++
  bgWritesFor env resolve
    (moduleAssetTotal (D.modules.getD []) + countIcons (D.personas.getD []))
    D.customBackground

/-- The complete expected final database of the amended round trip. -/
def expectedFinal (env : ImportEnv) (resolve : Resolver) (D : Database)
    (excl preserve : Bool) : Database where
  characters := D.characters
  characterOrder := D.characterOrder
  account :=
    if preserve && D.account.isSome then D.account
    else if excl then none else D.account
  modules := D.modules.map (fun msl => finalModules env 0 msl)
  personas := D.personas.map (fun psl =>
    updatedPersonas env (moduleAssetTotal (D.modules.getD [])) psl)
  customBackground :=
    bgFinal env resolve
      (moduleAssetTotal (D.modules.getD []) + countIcons (D.personas.getD []))
      D.customBackground
  extra := D.extra

/-- The tail of a confirmed import run after the three restore loops:
metadata cleanup, asset re-attachment, preservation splice, commit. -/
def assembleImport (D : Database) (preserve : Bool)
    (groups : List (String × MAsset)) (snap : Snapshot)
    (w : List (String × Bytes)) : ImportRun :=
  let snap3 := { snap with exportDate := none, exportVersion := none,
                           pluginName := none }
  let snap4 := reattachAssets snap3 groups
  let snap5 := { snap4 with characters := D.characters,
                            characterOrder := D.characterOrder }
  let snap6 := if preserve && D.account.isSome then
                 { snap5 with account := D.account }
               else snap5
  let snap7 := { snap6 with accountExcluded := none }
  ⟨none, some (snapToDb snap7), w⟩

/-! ### Helper lemmas -/

theorem digitChar_toNat {d : Nat} (h : d < 10) : (Nat.digitChar d).toNat = 48 + d := by
  interval_cases d <;> decide

theorem digitChar_isDigit {d : Nat} (h : d < 10) : (Nat.digitChar d).isDigit = true := by
  interval_cases d <;> decide

theorem digitsToNat_append_one (xs : List Char) (c : Char) :
    digitsToNat (xs ++ [c]) = 10 * digitsToNat xs + (c.toNat - 48) := by
  simp [digitsToNat, List.foldl_append]

theorem natDigitsAux_spec : ∀ (fuel n : Nat), n < fuel →
    digitsToNat (natDigitsAux fuel n) = n ∧
    (∀ c ∈ natDigitsAux fuel n, c.isDigit = true) ∧
    natDigitsAux fuel n ≠ [] := by
  intro fuel
  induction fuel with
  | zero => intro n h; omega
  | succ fuel ih =>
    intro n h
    by_cases h10 : n < 10
    · refine ⟨?_, ?_, by simp [natDigitsAux, h10]⟩
      · simp [natDigitsAux, h10, digitsToNat, digitChar_toNat h10] <;> omega
      · intro c hc
        simp [natDigitsAux, h10] at hc
        subst hc
        exact digitChar_isDigit h10
    · have hdiv : n / 10 < fuel := by omega
      obtain ⟨ih1, ih2, ih3⟩ := ih (n / 10) hdiv
      have hmod : n % 10 < 10 := Nat.mod_lt _ (by decide)
      refine ⟨?_, ?_, by simp [natDigitsAux, h10]⟩
      · rw [show natDigitsAux (fuel + 1) n =
              natDigitsAux fuel (n / 10) ++ [Nat.digitChar (n % 10)] by
              simp [natDigitsAux, h10]]
        rw [digitsToNat_append_one, ih1, digitChar_toNat hmod]
        omega
      · intro c hc
        rw [show natDigitsAux (fuel + 1) n =
              natDigitsAux fuel (n / 10) ++ [Nat.digitChar (n % 10)] by
              simp [natDigitsAux, h10]] at hc
        rcases List.mem_append.1 hc with h' | h'
        · exact ih2 c h'
        · simp at h'; subst h'; exact digitChar_isDigit hmod

theorem digitsToNat_natDigits (n : Nat) : digitsToNat (natDigits n) = n :=
  (natDigitsAux_spec (n + 1) n (Nat.lt_succ_self n)).1

theorem natDigits_all_digit (n : Nat) : ∀ c ∈ natDigits n, c.isDigit = true :=
  (natDigitsAux_spec (n + 1) n (Nat.lt_succ_self n)).2.1

theorem natDigits_ne_nil (n : Nat) : natDigits n ≠ [] :=
  (natDigitsAux_spec (n + 1) n (Nat.lt_succ_self n)).2.2

theorem stripLead_same : ∀ (p r : List Char), stripLead p (p ++ r) = some r := by
  intro p
  induction p with
  | nil => intro r; rfl
  | cons c cs ih => intro r; simp [stripLead, ih]

theorem takeWhile_all_cons (p : Char → Bool) :
    ∀ (xs : List Char) (y : Char) (ys : List Char),
    (∀ x ∈ xs, p x = true) → p y = false →
    (xs ++ y :: ys).takeWhile p = xs := by
  intro xs
  induction xs with
  | nil => intro y ys _ hy; simp [List.takeWhile, hy]
  | cons a as ih =>
    intro y ys hall hy
    have ha : p a = true := hall a (by simp)
    simp only [List.cons_append, List.takeWhile_cons, ha, if_true]
    rw [ih y ys (fun x hx => hall x (by simp [hx])) hy]

theorem dropWhile_all_cons (p : Char → Bool) :
    ∀ (xs : List Char) (y : Char) (ys : List Char),
    (∀ x ∈ xs, p x = true) → p y = false →
    (xs ++ y :: ys).dropWhile p = y :: ys := by
  intro xs
  induction xs with
  | nil => intro y ys _ hy; simp [List.dropWhile, hy]
  | cons a as ih =>
    intro y ys hall hy
    have ha : p a = true := hall a (by simp)
    simp only [List.cons_append, List.dropWhile_cons, ha, if_true]
    exact ih y ys (fun x hx => hall x (by simp [hx])) hy

theorem toList_mk (l : List Char) : (String.mk l).toList = l := rfl

theorem toList_append_str (a b : String) : (a ++ b).toList = a.toList ++ b.toList := by
  simp [String.toList, String.data_append]

theorem parsePersonaFname_roundTrip (i : Nat) (ext : String)
    (hne : ext.toList ≠ []) :
    parsePersonaFname ("persona-" ++ natToStr i ++ "." ++ ext) = some (i, ext) := by
  have htl : ("persona-" ++ natToStr i ++ "." ++ ext).toList =
      "persona-".toList ++ (natDigits i ++ '.' :: ext.toList) := by
    rw [toList_append_str, toList_append_str, toList_append_str]
    simp [natToStr, toList_mk]
  unfold parsePersonaFname
  rw [htl, stripLead_same]
  have hdigs : (natDigits i ++ '.' :: ext.toList).takeWhile Char.isDigit = natDigits i :=
    takeWhile_all_cons _ _ _ _ (natDigits_all_digit i) (by decide)
  have hrest : (natDigits i ++ '.' :: ext.toList).dropWhile Char.isDigit = '.' :: ext.toList :=
    dropWhile_all_cons _ _ _ _ (natDigits_all_digit i) (by decide)
  simp only [hdigs, hrest]
  have h1 : (natDigits i).isEmpty = false := by
    cases h : natDigits i with
    | nil => exact absurd h (natDigits_ne_nil i)
    | cons a as => rfl
  have h2 : (ext.toList).isEmpty = false := by
    cases h : ext.toList with
    | nil => exact absurd h hne
    | cons a as => rfl
  simp only [h1, h2, Bool.false_eq_true, if_false, digitsToNat_natDigits]
  have : String.mk ext.toList = ext := rfl
  simp [this]

/-! ### C2 — exclusion invariant -/

/-- C2 counterexample: with no `account` in the database and
`excludeAccount = false`, the snapshot still has no `account` key, refuting
"contains an account key iff excludeAccount was false" as a biconditional. -/
theorem c2_counterexample : exclusionClaimB c2cexDb false "2025-01-01" = false := by
  decide

/-- C2 (amended): the snapshot never contains `characters` or
`characterOrder`; its `account` equals the database's account unless
`excludeAccount`, so an account key is present iff `excludeAccount` was
false *and* the database itself had an account; and every module in the
snapshot has its asset list stripped. -/
theorem c2_exclusion (db : Database) (excl : Bool) (now : String) :
    (makeSnapshot db excl now).characters = none ∧
    (makeSnapshot db excl now).characterOrder = none ∧
    (makeSnapshot db excl now).account = (if excl then none else db.account) ∧
    (makeSnapshot db excl now).account.isSome = (!excl && db.account.isSome) ∧
    (makeSnapshot db excl now).modules =
      db.modules.map (fun ms => ms.map (fun m => { m with assets := none })) := by
  refine ⟨rfl, rfl, rfl, ?_, rfl⟩
  cases excl <;> simp [makeSnapshot]

/-! ### C3 — Tauri asset-restore failure is *not* escalated -/

/-- C3: in the Tauri environment with `saveAsset` failing and no fallback,
the import does **not** abort: the per-asset `catch` in the source swallows
the escalated "Tauri import failed" error, the asset is silently dropped,
and the pipeline commits with no error alert — contradicting the claimed
pipeline-level failure. -/
theorem c3_tauri_failure_swallowed :
    importSettings c3Env (some c3Arch) true true c3Db =
      ⟨none, some ⟨some ["c"], none, none, some [⟨"m1", none, "r"⟩], none, none, []⟩, []⟩ := by
  decide

/-! ### C7 — getItem contract -/

/-- C7 counterexample: the URL strategy resolves and the fetch succeeds with
an *empty* body while the key-value store holds non-empty data; `getItem`
returns the empty bytes instead of the first non-empty result demanded by
the claim. -/
theorem c7_counterexample :
    shimGetItem c7cexEnv "k" = some [] ∧
    claimGetItem c7cexEnv "k" = some [1] ∧
    shimGetItem c7cexEnv "k" ≠ claimGetItem c7cexEnv "k" := by
  refine ⟨by decide, by decide, by decide⟩

theorem strat2_raw (env : StorageEnv) (key : String) :
    strat2 env key = match rawStrat2 env key with
      | some b => if b.length > 0 then some b else none
      | none => none := by
  unfold strat2 rawStrat2
  cases env.forage <;> simp <;> cases env.forageGet key <;> simp

theorem strat3_raw (env : StorageEnv) (key : String) :
    strat3 env key = match rawStrat3 env key with
      | some b => if b.length > 0 then some b else none
      | none => none := by
  unfold strat3 rawStrat3
  cases env.idbGet key <;> simp

theorem strat1_degrade (env : StorageEnv) (key : String) :
    strat1 (degradeEnv env) key = strat1 env key := by
  unfold strat1 degradeEnv
  cases h : env.fileSrc key with
  | val url =>
      simp only [h, degradeOut]
      by_cases hl : url.length > 0
      · simp only [hl, if_true]
        cases h2 : env.fetchUrl url <;> simp [h2, degradeOut]
      · simp [hl]
  | empty => simp [h, degradeOut]
  | err => simp [h, degradeOut]

theorem strat2_degrade (env : StorageEnv) (key : String) :
    strat2 (degradeEnv env) key = strat2 env key := by
  unfold strat2 degradeEnv
  cases env.forage <;> simp <;> cases h : env.forageGet key <;> simp [h, degradeOut]

theorem strat3_degrade (env : StorageEnv) (key : String) :
    strat3 (degradeEnv env) key = strat3 env key := by
  unfold strat3 degradeEnv
  cases h : env.idbGet key <;> simp [h, degradeOut]

/-- C7 (amended): `getItem` equals the amended contract — strategy 1's
fetched bytes are returned whenever the URL resolves and the fetch succeeds
(even when the body is empty); otherwise the first non-empty result of the
key-value store and then (outside Tauri) IndexedDB is returned, `null` when
both miss.  Moreover a thrown error in any strategy behaves exactly like a
miss (degrade invariance), and in Tauri the result never consults the
IndexedDB oracle. -/
theorem c7_amended (env : StorageEnv) (key : String) :
    shimGetItem env key = amendedGetItem env key ∧
    shimGetItem (degradeEnv env) key = shimGetItem env key ∧
    (∀ g : String → Outcome Bytes,
      shimGetItem { env with isTauri := true, idbGet := g } key =
      shimGetItem { env with isTauri := true } key) := by
  refine ⟨?_, ?_, ?_⟩
  · unfold shimGetItem amendedGetItem
    rw [strat2_raw, strat3_raw]
    cases strat1 env key with
    | some b => rfl
    | none =>
      cases r2 : rawStrat2 env key with
      | some b =>
          by_cases hl : b.length > 0
          · simp [firstNonEmpty, hl]
          · cases env.isTauri <;> cases r3 : rawStrat3 env key <;>
              simp [firstNonEmpty, hl]
      | none =>
          cases env.isTauri <;> cases r3 : rawStrat3 env key <;>
            simp [firstNonEmpty]
  · unfold shimGetItem
    rw [strat1_degrade, strat2_degrade, strat3_degrade]
    rfl
  · intro g
    rfl

/-! ### C8 — setItem contract -/

/-- C8: `setItem` writes through the key-value store when one is present
(surfacing that store's own failure if it rejects); in Tauri with no
key-value store it fails with the explicit not-supported error — and that is
the *only* situation producing it; otherwise it performs the direct
IndexedDB write. -/
theorem c8_setItem (env : StorageEnv) (key : String) (v : Bytes) :
    shimSetItem { env with forage := true } key v =
      (if env.forageSetOk key then SetResult.ok key v else SetResult.storeErr) ∧
    shimSetItem { env with forage := false, isTauri := true } key v =
      SetResult.notSupported ∧
    shimSetItem { env with forage := false, isTauri := false } key v =
      (if env.idbSetOk key then SetResult.ok key v else SetResult.idbErr) ∧
    (shimSetItem env key v = SetResult.notSupported ↔
      env.forage = false ∧ env.isTauri = true) := by
  refine ⟨rfl, rfl, rfl, ?_⟩
  unfold shimSetItem
  cases env.forage <;> cases env.isTauri <;>
    simp <;> split <;> simp

/-! ### C4 — no mutation before commitment -/

/-- C4: if the upload fails to parse as a ZIP, or the archive has no
`settings.json`, or the operator declines the dialog, the import performs no
asset-storage write and no database commit; and the missing-`settings.json`
case surfaces the hard-failure alert. -/
theorem c4_no_mutation (env : ImportEnv) (zipData : Option Archive)
    (confirmed p : Bool) (db : Database)
    (h : zipData = none ∨ (∃ A, zipData = some A ∧ A.settings = none) ∨
         confirmed = false) :
    (importSettings env zipData confirmed p db).writes = [] ∧
    (importSettings env zipData confirmed p db).committed = none ∧
    (∀ A, zipData = some A → A.settings = none →
      (importSettings env zipData confirmed p db).alert =
        some "Import failed: settings.json not found in ZIP file") := by
  cases zipData with
  | none =>
      exact ⟨rfl, rfl, fun A hA => absurd hA (by simp)⟩
  | some A =>
    cases hs : A.settings with
    | none =>
        refine ⟨?_, ?_, ?_⟩
        · simp [importSettings, hs]
        · simp [importSettings, hs]
        · intro A' hA' _
          have : A' = A := by injection hA' with h'; exact h'.symm
          subst this
          simp [importSettings, hs]
    | some snap =>
        rcases h with h | ⟨B, hB, hBs⟩ | hc
        · exact absurd h (by simp)
        · have : A = B := by injection hB
          subst this
          rw [hs] at hBs
          exact absurd hBs (by simp)
        · subst hc
          refine ⟨?_, ?_, ?_⟩
          · simp [importSettings, hs]
          · simp [importSettings, hs]
          · intro A' hA' hA's
            have : A' = A := by injection hA' with h'; exact h'.symm
            subst this
            rw [hs] at hA's
            exact absurd hA's (by simp)

/-- C4 witness: a concrete archive with no `settings.json` entry aborts with
the hard-failure alert, no write, no commit. -/
theorem c4_witness :
    ((some c4witArch : Option Archive) = none ∨
     (∃ A, (some c4witArch : Option Archive) = some A ∧ A.settings = none) ∨
     (true = false)) ∧
    (importSettings okImportEnv (some c4witArch) true true c3Db).writes = [] ∧
    (importSettings okImportEnv (some c4witArch) true true c3Db).committed = none ∧
    (importSettings okImportEnv (some c4witArch) true true c3Db).alert =
      some "Import failed: settings.json not found in ZIP file" := by
  have h : (some c4witArch : Option Archive) = none ∨
      (∃ A, (some c4witArch : Option Archive) = some A ∧ A.settings = none) ∨
      (true = false) := Or.inr (Or.inl ⟨c4witArch, rfl, rfl⟩)
  have hc := c4_no_mutation okImportEnv (some c4witArch) true true c3Db h
  exact ⟨h, hc.1, hc.2.1, hc.2.2 c4witArch rfl rfl⟩

/-! ### Field-preservation lemmas for the restore loops -/

theorem restoreOnePersona_preserves (env : ImportEnv) (fname : String)
    (c : Bytes) (snap : Snapshot) (s : ImpState) :
    (restoreOnePersona env fname c snap s).1.account = snap.account ∧
    (restoreOnePersona env fname c snap s).1.characters = snap.characters ∧
    (restoreOnePersona env fname c snap s).1.characterOrder = snap.characterOrder ∧
    (restoreOnePersona env fname c snap s).1.modules = snap.modules ∧
    (restoreOnePersona env fname c snap s).1.customBackground = snap.customBackground ∧
    (restoreOnePersona env fname c snap s).1.extra = snap.extra ∧
    (restoreOnePersona env fname c snap s).1.exportDate = snap.exportDate ∧
    (restoreOnePersona env fname c snap s).1.exportVersion = snap.exportVersion ∧
    (restoreOnePersona env fname c snap s).1.pluginName = snap.pluginName ∧
    (restoreOnePersona env fname c snap s).1.accountExcluded = snap.accountExcluded := by
  unfold restoreOnePersona
  refine ⟨?_, ?_, ?_, ?_, ?_, ?_, ?_, ?_, ?_, ?_⟩
  all_goals repeat' split
  all_goals simp

theorem restorePersonaFiles_preserves (env : ImportEnv) :
    ∀ (fs : List (String × Bytes)) (snap : Snapshot) (s : ImpState),
    (restorePersonaFiles env fs snap s).1.account = snap.account ∧
    (restorePersonaFiles env fs snap s).1.characters = snap.characters ∧
    (restorePersonaFiles env fs snap s).1.characterOrder = snap.characterOrder ∧
    (restorePersonaFiles env fs snap s).1.modules = snap.modules ∧
    (restorePersonaFiles env fs snap s).1.customBackground = snap.customBackground ∧
    (restorePersonaFiles env fs snap s).1.extra = snap.extra ∧
    (restorePersonaFiles env fs snap s).1.exportDate = snap.exportDate ∧
    (restorePersonaFiles env fs snap s).1.exportVersion = snap.exportVersion ∧
    (restorePersonaFiles env fs snap s).1.pluginName = snap.pluginName ∧
    (restorePersonaFiles env fs snap s).1.accountExcluded = snap.accountExcluded := by
  intro fs
  induction fs with
  | nil => intro snap s; exact ⟨rfl, rfl, rfl, rfl, rfl, rfl, rfl, rfl, rfl, rfl⟩
  | cons f fs ih =>
    intro snap s
    obtain ⟨fn, co⟩ := f
    obtain ⟨h1, h2, h3, h4, h5, h6, h7, h8, h9, h10⟩ :=
      restoreOnePersona_preserves env fn co snap s
    obtain ⟨g1, g2, g3, g4, g5, g6, g7, g8, g9, g10⟩ :=
      ih (restoreOnePersona env fn co snap s).1 (restoreOnePersona env fn co snap s).2
    have heq : restorePersonaFiles env ((fn, co) :: fs) snap s =
        restorePersonaFiles env fs (restoreOnePersona env fn co snap s).1
          (restoreOnePersona env fn co snap s).2 := rfl
    rw [heq]
    exact ⟨g1.trans h1, g2.trans h2, g3.trans h3, g4.trans h4, g5.trans h5,
           g6.trans h6, g7.trans h7, g8.trans h8, g9.trans h9, g10.trans h10⟩

theorem restoreBg_preserves (env : ImportEnv) (bgFiles : List (String × Bytes))
    (snap : Snapshot) (s : ImpState) :
    (restoreBg env bgFiles snap s).1.account = snap.account ∧
    (restoreBg env bgFiles snap s).1.characters = snap.characters ∧
    (restoreBg env bgFiles snap s).1.characterOrder = snap.characterOrder ∧
    (restoreBg env bgFiles snap s).1.modules = snap.modules ∧
    (restoreBg env bgFiles snap s).1.personas = snap.personas ∧
    (restoreBg env bgFiles snap s).1.extra = snap.extra ∧
    (restoreBg env bgFiles snap s).1.exportDate = snap.exportDate ∧
    (restoreBg env bgFiles snap s).1.exportVersion = snap.exportVersion ∧
    (restoreBg env bgFiles snap s).1.pluginName = snap.pluginName ∧
    (restoreBg env bgFiles snap s).1.accountExcluded = snap.accountExcluded := by
  unfold restoreBg
  refine ⟨?_, ?_, ?_, ?_, ?_, ?_, ?_, ?_, ?_, ?_⟩
  all_goals repeat' split
  all_goals simp

/-! ### C5 — preservation splice -/

/-- C5: every committed import keeps the live database's `characters` and
`characterOrder` whatever the archive contained; the pre-import `account` is
kept when the operator preserves it and one existed; when not preserving,
the backup's own `account` field (present or absent) takes effect. -/
theorem c5_preservation (env : ImportEnv) (zipData : Option Archive) (p : Bool)
    (db final : Database)
    (h : (importSettings env zipData true p db).committed = some final) :
    final.characters = db.characters ∧
    final.characterOrder = db.characterOrder ∧
    (p = true → db.account.isSome = true → final.account = db.account) ∧
    (p = false → ∃ A snap, zipData = some A ∧ A.settings = some snap ∧
      final.account = snap.account) := by
  cases zipData with
  | none => simp [importSettings] at h
  | some A =>
    cases hs : A.settings with
    | none => simp [importSettings, hs] at h
    | some snap =>
      simp only [importSettings, hs] at h
      rw [if_neg (by simp)] at h
      simp only [Option.some.injEq] at h
      subst h
      have hbg := restoreBg_preserves env A.bgFiles
        (restorePersonaFiles env A.personaFiles snap
          (restoreModuleFiles env A.moduleFiles ⟨0, []⟩).2).1
        (restorePersonaFiles env A.personaFiles snap
          (restoreModuleFiles env A.moduleFiles ⟨0, []⟩).2).2
      have hpf := restorePersonaFiles_preserves env A.personaFiles snap
        (restoreModuleFiles env A.moduleFiles ⟨0, []⟩).2
      refine ⟨?_, ?_, ?_, ?_⟩
      · simp only [snapToDb, reattachAssets]
        split <;> rfl
      · simp only [snapToDb, reattachAssets]
        split <;> rfl
      · intro hp ha
        simp only [snapToDb, reattachAssets, hp, ha]
        simp
      · intro hp
        refine ⟨A, snap, rfl, hs, ?_⟩
        simp only [snapToDb, reattachAssets, hp]
        simp only [Bool.false_and, if_neg]
        simpa using hbg.1.trans hpf.1

/-- C5 witness: a concrete committed import (not preserving the account)
where the backup's own account takes effect and the live characters
survive. -/
theorem c5_witness :
    ((importSettings okImportEnv (some c5witArch) true false c5witDb).committed =
      some c5witFinal) ∧
    c5witFinal.characters = c5witDb.characters ∧
    c5witFinal.characterOrder = c5witDb.characterOrder ∧
    (false = false → ∃ A snap, (some c5witArch : Option Archive) = some A ∧
      A.settings = some snap ∧ c5witFinal.account = snap.account) := by
  have h : (importSettings okImportEnv (some c5witArch) true false c5witDb).committed =
      some c5witFinal := by decide
  have hc := c5_preservation okImportEnv (some c5witArch) false c5witDb c5witFinal h
  exact ⟨h, hc.1, hc.2.1, hc.2.2.2⟩

/-! ### C6 — key rewrite mints a new key -/

/-- C6: importing the §8 scenario archive (module `m1`, archived asset entry
`module-assets/m1/icon1.png`) into a database with characters `["keepme"]`
leaves the characters unchanged and produces exactly one `m1` asset tuple
whose storage key is the key minted by the host's `saveAsset` — not the
literal exported key `assets/icon1.png` — whenever the host mints fresh
keys. -/
theorem c6_key_rewrite (mint : Nat → String) (h : mint 0 ≠ "assets/icon1.png") :
    ∃ final,
      (importSettings ⟨webStorageEnv, fun _ => true, mint⟩
        (some c6Arch) true true c6Db).committed = some final ∧
      final.characters = some ["keepme"] ∧
      final.modules = some [⟨"m1", some [⟨"icon1", mint 0, "png"⟩], "r"⟩] ∧
      mint 0 ≠ "assets/icon1.png" := by
  exact ⟨⟨some ["keepme"], some ["ord"], none,
          some [⟨"m1", some [⟨"icon1", mint 0, "png"⟩], "r"⟩], none, none, []⟩,
         rfl, rfl, rfl, h⟩

/-- C6 witness: with the concrete fresh-key mint `n0`, `n1`, …, the minted
key differs from the literal exported key and the theorem applies. -/
theorem c6_witness :
    okImportEnv.mint 0 ≠ "assets/icon1.png" ∧
    ∃ final,
      (importSettings ⟨webStorageEnv, fun _ => true, okImportEnv.mint⟩
        (some c6Arch) true true c6Db).committed = some final ∧
      final.characters = some ["keepme"] ∧
      final.modules = some [⟨"m1", some [⟨"icon1", okImportEnv.mint 0, "png"⟩], "r"⟩] ∧
      okImportEnv.mint 0 ≠ "assets/icon1.png" := by
  have h : okImportEnv.mint 0 ≠ "assets/icon1.png" := by decide
  exact ⟨h, c6_key_rewrite okImportEnv.mint h⟩

/-! ### C10 — persona icons are exported with a hard-coded png name -/

theorem append_png (x : String) : x ++ "." ++ "png" = x ++ ".png" := by
  apply String.ext
  simp [String.data_append]

theorem parsePersona_png (i : Nat) :
    parsePersonaFname ("persona-" ++ natToStr i ++ ".png") = some (i, "png") := by
  have h := parsePersonaFname_roundTrip i "png" (by decide)
  rwa [append_png] at h

/-- C10: every persona-icon entry the export writes is named
`persona-<index>.png` — the `png` suffix is hard-coded irrespective of the
original icon reference's extension — and the import's
`^persona-(\d+)\.(.+)$` match therefore parses `png` back as the
extension. -/
theorem c10_persona_png (db : Database) (resolve : Resolver) (e : String × Bytes)
    (he : e ∈ exportPersonaFiles resolve db) :
    ∃ i, e.1 = "persona-" ++ natToStr i ++ ".png" ∧
         parsePersonaFname e.1 = some (i, "png") := by
  rcases List.mem_filterMap.1 he with ⟨p, hp, hmap⟩
  rcases Option.map_eq_some'.1 hmap with ⟨b, _, he'⟩
  subst he'
  exact ⟨p.1, rfl, parsePersona_png p.1⟩

/-- C10 witness: the export of a database with one persona whose icon is a
local `.webp` reference contains exactly `persona-0.png`, and that name
parses back with extension `png`. -/
theorem c10_witness :
    (("persona-0.png", [8]) : String × Bytes) ∈ exportPersonaFiles c10witResolve c10witDb ∧
    ∃ i, (("persona-0.png", [8]) : String × Bytes).1 = "persona-" ++ natToStr i ++ ".png" ∧
         parsePersonaFname (("persona-0.png", [8]) : String × Bytes).1 = some (i, "png") := by
  have hm : (("persona-0.png", [8]) : String × Bytes) ∈ exportPersonaFiles c10witResolve c10witDb := by
    decide
  exact ⟨hm, c10_persona_png c10witDb c10witResolve _ hm⟩

/-! ### C9 — partial-failure tolerance of the export -/

theorem filterMap_mkModuleFile_length (resolve : Resolver) (mid : String) :
    ∀ as : List MAsset, (∀ a ∈ as, a.assetId ≠ "" ∧ a.storageKey ≠ "") →
    (as.filterMap (mkModuleFile resolve mid)).length =
      as.countP (fun a => (resolve a.storageKey).isSome) := by
  intro as
  induction as with
  | nil => intro _; rfl
  | cons a as ih =>
    intro hv
    have ha := hv a (by simp)
    have hmk : mkModuleFile resolve mid a =
        match resolve a.storageKey with
        | none => none
        | some bytes =>
          some ⟨mid,
            if strEndsWith a.assetId ("." ++ effExt a.ext) then a.assetId
            else a.assetId ++ "." ++ effExt a.ext, bytes⟩ := by
      unfold mkModuleFile
      rw [if_neg (by push_neg; exact ha)]
    rw [List.filterMap_cons, List.countP_cons, hmk]
    cases h : resolve a.storageKey with
    | none => simp [h, ih (fun x hx => hv x (by simp [hx]))]
    | some b => simp [h, ih (fun x hx => hv x (by simp [hx]))]

theorem exportModuleFiles_length (resolve : Resolver) :
    ∀ groups : List (String × List MAsset),
    (∀ g ∈ groups, ∀ a ∈ g.2, a.assetId ≠ "" ∧ a.storageKey ≠ "") →
    (groups.flatMap (fun g => g.2.filterMap (mkModuleFile resolve g.1))).length =
      (groups.flatMap (fun g => g.2)).countP (fun a => (resolve a.storageKey).isSome) := by
  intro groups
  induction groups with
  | nil => intro _; rfl
  | cons g gs ih =>
    intro hv
    rw [List.flatMap_cons, List.flatMap_cons, List.length_append, List.countP_append,
        filterMap_mkModuleFile_length resolve g.1 g.2 (hv g (by simp)),
        ih (fun x hx => hv x (by simp [hx]))]

theorem countP_resolve_split (resolve : Resolver) :
    ∀ l : List MAsset,
    l.countP (fun a => (resolve a.storageKey).isSome) +
      l.countP (fun a => (resolve a.storageKey).isNone) = l.length := by
  intro l
  induction l with
  | nil => rfl
  | cons a as ih =>
    rw [List.countP_cons, List.countP_cons]
    cases h : resolve a.storageKey <;> simp [h] <;> omega

/-- C9: if every enumerated module asset is well formed (truthy id and key)
and resolution fails for exactly one of the N of them, the export still
produces an archive containing the other N − 1 module-asset entries together
with a `settings.json`, and every asset that did resolve is present with its
bytes. -/
theorem c9_partial_failure (db : Database) (resolve : Resolver) (now : String)
    (excl : Bool)
    (hv : ∀ g ∈ collectModuleAssets (db.modules.getD []), ∀ a ∈ g.2,
      a.assetId ≠ "" ∧ a.storageKey ≠ "")
    (h1 : (((collectModuleAssets (db.modules.getD [])).flatMap (fun g => g.2)).filter
            (fun a => (resolve a.storageKey).isNone)).length = 1) :
    (exportSettings db excl resolve now).moduleFiles.length =
      ((collectModuleAssets (db.modules.getD [])).flatMap (fun g => g.2)).length - 1 ∧
    (exportSettings db excl resolve now).settings.isSome = true ∧
    (∀ g ∈ collectModuleAssets (db.modules.getD []), ∀ a ∈ g.2, ∀ b,
      resolve a.storageKey = some b →
      (⟨g.1,
        if strEndsWith a.assetId ("." ++ effExt a.ext) then a.assetId
        else a.assetId ++ "." ++ effExt a.ext, b⟩ : MFile) ∈
        (exportSettings db excl resolve now).moduleFiles) := by
  refine ⟨?_, rfl, ?_⟩
  · show (exportModuleFiles resolve db).length = _
    unfold exportModuleFiles
    rw [exportModuleFiles_length resolve _ hv]
    have hsplit := countP_resolve_split resolve
      ((collectModuleAssets (db.modules.getD [])).flatMap (fun g => g.2))
    rw [← List.countP_eq_length_filter] at h1
    omega
  · intro g hg a ha b hb
    show _ ∈ exportModuleFiles resolve db
    unfold exportModuleFiles
    refine List.mem_flatMap.2 ⟨g, hg, List.mem_filterMap.2 ⟨a, ha, ?_⟩⟩
    have hva := hv g hg a ha
    unfold mkModuleFile
    rw [if_neg (by push_neg; exact hva), hb]

/-- C9 witness: a two-asset module where exactly the second asset fails to
resolve exports an archive with the one resolving asset and a
`settings.json`. -/
theorem c9_witness :
    (∀ g ∈ collectModuleAssets (c9witDb.modules.getD []), ∀ a ∈ g.2,
      a.assetId ≠ "" ∧ a.storageKey ≠ "") ∧
    ((((collectModuleAssets (c9witDb.modules.getD [])).flatMap (fun g => g.2)).filter
        (fun a => (c9witResolve a.storageKey).isNone)).length = 1) ∧
    (exportSettings c9witDb true c9witResolve "d").moduleFiles.length =
      ((collectModuleAssets (c9witDb.modules.getD [])).flatMap (fun g => g.2)).length - 1 ∧
    (exportSettings c9witDb true c9witResolve "d").settings.isSome = true := by
  have hv : ∀ g ∈ collectModuleAssets (c9witDb.modules.getD []), ∀ a ∈ g.2,
      a.assetId ≠ "" ∧ a.storageKey ≠ "" := by decide
  have h1 : (((collectModuleAssets (c9witDb.modules.getD [])).flatMap (fun g => g.2)).filter
      (fun a => (c9witResolve a.storageKey).isNone)).length = 1 := by decide
  have hc := c9_partial_failure c9witDb c9witResolve "d" true hv h1
  exact ⟨hv, h1, hc.1, hc.2.1⟩

/-! ### C1 — lemma ladder -/

theorem splitAtLastDot_none : ∀ cs : List Char, (∀ c ∈ cs, c ≠ '.') →
    splitAtLastDot cs = none := by
  intro cs
  induction cs with
  | nil => intro _; rfl
  | cons c rest ih =>
    intro h
    unfold splitAtLastDot
    rw [ih (fun x hx => h x (by simp [hx]))]
    simp [h c (by simp)]

theorem splitAtLastDot_append : ∀ (pre ext : List Char), (∀ c ∈ ext, c ≠ '.') →
    splitAtLastDot (pre ++ '.' :: ext) = some (pre, ext) := by
  intro pre
  induction pre with
  | nil =>
    intro ext h
    have h0 := splitAtLastDot_none ext h
    simp [splitAtLastDot, h0]
  | cons c pre ih =>
    intro ext h
    rw [show (c :: pre) ++ '.' :: ext = c :: (pre ++ '.' :: ext) from rfl]
    unfold splitAtLastDot
    rw [ih ext h]

theorem string_mk_toList (s : String) : String.mk s.toList = s := rfl

theorem splitExt_append (idStr ext : String) (hdot : ∀ c ∈ ext.toList, c ≠ '.') :
    splitExt (idStr ++ "." ++ ext) = some (idStr, ext) := by
  unfold splitExt
  rw [toList_append_str, toList_append_str,
      show ("." : String).toList = ['.'] from rfl, List.append_assoc,
      show ['.'] ++ ext.toList = '.' :: ext.toList from rfl,
      splitAtLastDot_append _ _ hdot]
  simp [string_mk_toList]

theorem assetWFB_spec {resolve : Resolver} {a : MAsset}
    (h : assetWFB resolve a = true) :
    a.assetId ≠ "" ∧ a.storageKey ≠ "" ∧ a.ext ≠ "" ∧
    (∀ c ∈ a.ext.toList, c ≠ '.') ∧
    strEndsWith a.assetId ("." ++ a.ext) = false ∧
    (resolve a.storageKey).isSome = true := by
  simp only [assetWFB, Bool.and_eq_true, bne_iff_ne, ne_eq, List.all_eq_true,
    Bool.not_eq_true'] at h
  exact ⟨h.1.1.1.1.1, h.1.1.1.1.2, h.1.1.1.2, h.1.1.2, h.1.2, h.2⟩

theorem upsert_new (acc : List (String × List MAsset)) (k : String)
    (v : List MAsset) (h : ∀ p ∈ acc, p.1 ≠ k) :
    upsert acc k v = acc ++ [(k, v)] := by
  unfold upsert
  rw [if_neg]
  simp only [List.any_eq_true, not_exists]
  intro p
  simp only [decide_eq_true_eq, not_and]
  exact fun hp => h p hp

theorem collect_aux : ∀ (ms : List Module) (acc : List (String × List MAsset)),
    (∀ m ∈ ms, ∀ p ∈ acc, p.1 ≠ m.id) → (ms.map Module.id).Nodup →
    (ms.foldl (fun acc m => match m.assets with
      | some as => upsert acc m.id as
      | none => acc) acc) =
    acc ++ ms.filterMap (fun m => m.assets.map (fun as => (m.id, as))) := by
  intro ms
  induction ms with
  | nil => intro acc _ _; simp
  | cons m ms ih =>
    intro acc hdis hnd
    have hnd2 := hnd
    rw [List.map_cons, List.nodup_cons] at hnd2
    obtain ⟨hnotin, hnd'⟩ := hnd2
    rw [List.foldl_cons, List.filterMap_cons]
    cases ha : m.assets with
    | none =>
      simp only [ha]
      rw [ih acc (fun m' hm' p hp => hdis m' (by simp [hm']) p hp) hnd']
      simp [Option.map]
    | some as =>
      simp only [ha]
      rw [upsert_new acc m.id as (fun p hp => hdis m (by simp) p hp)]
      rw [ih (acc ++ [(m.id, as)]) ?_ hnd']
      · simp [Option.map]
      · intro m' hm' p hp
        rcases List.mem_append.1 hp with hpa | hpb
        · exact hdis m' (by simp [hm']) p hpa
        · simp at hpb
          subst hpb
          intro hcontra
          exact hnotin (by rw [show m.id = m'.id from hcontra]
                           exact List.mem_map.2 ⟨m', hm', rfl⟩)

theorem collectModuleAssets_eq (ms : List Module)
    (hnd : (ms.map Module.id).Nodup) :
    collectModuleAssets ms =
      ms.filterMap (fun m => m.assets.map (fun as => (m.id, as))) := by
  unfold collectModuleAssets
  have := collect_aux ms [] (by simp) hnd
  simpa using this

theorem filterMap_good (resolve : Resolver) (mid : String) :
    ∀ as : List MAsset, (∀ a ∈ as, assetWFB resolve a = true) →
    as.filterMap (mkModuleFile resolve mid) =
      as.map (fun a =>
        (⟨mid, a.assetId ++ "." ++ a.ext, (resolve a.storageKey).getD []⟩ : MFile)) := by
  intro as
  induction as with
  | nil => intro _; rfl
  | cons a as ih =>
    intro hWF
    obtain ⟨h1, h2, h3, _, h5, h6⟩ := assetWFB_spec (hWF a (by simp))
    obtain ⟨b, hb⟩ := Option.isSome_iff_exists.1 h6
    have heff : effExt a.ext = a.ext := by unfold effExt; rw [if_neg h3]
    have hmk : mkModuleFile resolve mid a =
        some ⟨mid, a.assetId ++ "." ++ a.ext, (resolve a.storageKey).getD []⟩ := by
      unfold mkModuleFile
      rw [if_neg (by push_neg; exact ⟨h1, h2⟩), hb, heff]
      simp [h5]
    rw [List.filterMap_cons, hmk, List.map_cons,
        ih (fun x hx => hWF x (by simp [hx]))]

theorem filterMapFlat_good (resolve : Resolver) :
    ∀ ms : List Module,
    (∀ m ∈ ms, ∀ a ∈ m.assets.getD [], assetWFB resolve a = true) →
    (ms.filterMap (fun m => m.assets.map (fun as => (m.id, as)))).flatMap
      (fun g => g.2.filterMap (mkModuleFile resolve g.1)) =
    moduleFilesFor resolve ms := by
  intro ms
  induction ms with
  | nil => intro _; rfl
  | cons m ms ih =>
    intro hWF
    rw [List.filterMap_cons]
    cases ha : m.assets with
    | none =>
      simp only [ha, Option.map_none']
      rw [ih (fun x hx => hWF x (by simp [hx]))]
      simp [moduleFilesFor, ha]
    | some as =>
      simp only [ha, Option.map_some']
      rw [List.flatMap_cons]
      have has : ∀ a ∈ as, assetWFB resolve a = true := by
        intro a haa
        have := hWF m (by simp)
        rw [ha] at this
        exact this a haa
      rw [filterMap_good resolve m.id as has, ih (fun x hx => hWF x (by simp [hx]))]
      simp [moduleFilesFor, ha]

theorem exportModuleFiles_good (resolve : Resolver) (db : Database)
    (hnd : ((db.modules.getD []).map Module.id).Nodup)
    (hWF : ∀ m ∈ db.modules.getD [], ∀ a ∈ m.assets.getD [],
      assetWFB resolve a = true) :
    exportModuleFiles resolve db = moduleFilesFor resolve (db.modules.getD []) := by
  unfold exportModuleFiles
  rw [collectModuleAssets_eq _ hnd]
  exact filterMapFlat_good resolve _ hWF

theorem exportPersonaFiles_aux (resolve : Resolver) :
    ∀ (ps : List Persona) (n : Nat),
    (∀ p ∈ ps, ∀ ic, p.icon = some ic → strStartsWith ic "assets/" = true →
      (resolve ic).isSome = true) →
    (personaIconsFrom n ps).filterMap
      (fun p => (resolve p.2).map (fun b => ("persona-" ++ natToStr p.1 ++ ".png", b))) =
    personaFilesFor resolve n ps := by
  intro ps
  induction ps with
  | nil => intro n _; rfl
  | cons p ps ih =>
    intro n hres
    cases hic : p.icon with
    | none =>
      simp only [personaIconsFrom, personaFilesFor, hic]
      exact ih (n + 1) (fun x hx => hres x (by simp [hx]))
    | some ic =>
      simp only [personaIconsFrom, personaFilesFor, hic]
      cases hst : strStartsWith ic "assets/" with
      | false =>
        simp only [Bool.false_eq_true, if_false]
        exact ih (n + 1) (fun x hx => hres x (by simp [hx]))
      | true =>
        simp only [if_true]
        obtain ⟨b, hb⟩ := Option.isSome_iff_exists.1 (hres p (by simp) ic hic hst)
        rw [List.filterMap_cons]
        simp only [hb, Option.map_some']
        rw [ih (n + 1) (fun x hx => hres x (by simp [hx]))]
        simp

theorem exportPersonaFiles_good (resolve : Resolver) (db : Database)
    (hres : ∀ p ∈ db.personas.getD [], ∀ ic, p.icon = some ic →
      strStartsWith ic "assets/" = true → (resolve ic).isSome = true) :
    exportPersonaFiles resolve db = personaFilesFor resolve 0 (db.personas.getD []) :=
  exportPersonaFiles_aux resolve _ 0 hres

theorem restoreModuleFiles_append (env : ImportEnv) :
    ∀ (xs ys : List MFile) (s : ImpState),
    restoreModuleFiles env (xs ++ ys) s =
      ((restoreModuleFiles env xs s).1 ++
        (restoreModuleFiles env ys (restoreModuleFiles env xs s).2).1,
       (restoreModuleFiles env ys (restoreModuleFiles env xs s).2).2) := by
  intro xs
  induction xs with
  | nil => intro ys s; simp [restoreModuleFiles]
  | cons f fs ih =>
    intro ys s
    rw [List.cons_append]
    rcases hr : restoreOneModuleFile env f s with ⟨o, s'⟩
    cases o with
    | some e => simp [restoreModuleFiles, hr, ih]
    | none => simp [restoreModuleFiles, hr, ih]

theorem restore_good_block (env : ImportEnv) (resolve : Resolver) (mid : String)
    (hsave : ∀ n, env.saveOk n = true) :
    ∀ (as : List MAsset) (s : ImpState),
    (∀ a ∈ as, ∀ c ∈ a.ext.toList, c ≠ '.') →
    restoreModuleFiles env (as.map (fun a =>
        (⟨mid, a.assetId ++ "." ++ a.ext, (resolve a.storageKey).getD []⟩ : MFile))) s =
      ((restoredAssetsFor env s.calls as).map (fun x => (mid, x)),
       ⟨s.calls + as.length, s.writes ++ assetWritesFor env resolve s.calls as⟩) := by
  intro as
  induction as with
  | nil =>
    intro s _
    cases s
    simp [restoreModuleFiles, restoredAssetsFor, assetWritesFor]
  | cons a as ih =>
    intro s hdot
    have hone : restoreOneModuleFile env
        ⟨mid, a.assetId ++ "." ++ a.ext, (resolve a.storageKey).getD []⟩ s =
        (some (mid, ⟨a.assetId, env.mint s.calls, a.ext⟩),
         ⟨s.calls + 1, s.writes ++ [(env.mint s.calls, (resolve a.storageKey).getD [])]⟩) := by
      unfold restoreOneModuleFile
      rw [splitExt_append _ _ (hdot a (by simp))]
      unfold trySaveAsset
      rw [hsave s.calls]
      simp
    rw [List.map_cons]
    rw [show restoreModuleFiles env
          ((⟨mid, a.assetId ++ "." ++ a.ext, (resolve a.storageKey).getD []⟩ : MFile) ::
            as.map (fun a =>
              (⟨mid, a.assetId ++ "." ++ a.ext, (resolve a.storageKey).getD []⟩ : MFile))) s =
        ((mid, (⟨a.assetId, env.mint s.calls, a.ext⟩ : MAsset)) ::
          (restoreModuleFiles env (as.map (fun a =>
            (⟨mid, a.assetId ++ "." ++ a.ext, (resolve a.storageKey).getD []⟩ : MFile)))
            ⟨s.calls + 1, s.writes ++ [(env.mint s.calls, (resolve a.storageKey).getD [])]⟩).1,
         (restoreModuleFiles env (as.map (fun a =>
            (⟨mid, a.assetId ++ "." ++ a.ext, (resolve a.storageKey).getD []⟩ : MFile)))
            ⟨s.calls + 1, s.writes ++ [(env.mint s.calls, (resolve a.storageKey).getD [])]⟩).2)
        from by simp [restoreModuleFiles, hone]]
    rw [ih ⟨s.calls + 1, s.writes ++ [(env.mint s.calls, (resolve a.storageKey).getD [])]⟩
          (fun x hx => hdot x (by simp [hx]))]
    simp only [restoredAssetsFor, assetWritesFor, List.map_cons, Prod.mk.injEq,
               ImpState.mk.injEq]
    refine ⟨trivial, ?_, ?_⟩
    · simp only [List.length_cons]; omega
    · simp [List.append_assoc]

theorem restore_moduleFilesFor (env : ImportEnv) (resolve : Resolver)
    (hsave : ∀ n, env.saveOk n = true) :
    ∀ (ms : List Module) (s : ImpState),
    (∀ m ∈ ms, ∀ a ∈ m.assets.getD [], ∀ c ∈ a.ext.toList, c ≠ '.') →
    restoreModuleFiles env (moduleFilesFor resolve ms) s =
      (moduleEntriesFor env s.calls ms,
       ⟨s.calls + moduleAssetTotal ms,
        s.writes ++ moduleWritesFor env resolve s.calls ms⟩) := by
  intro ms
  induction ms with
  | nil =>
    intro s _
    cases s
    simp [moduleFilesFor, restoreModuleFiles, moduleEntriesFor, moduleAssetTotal,
          moduleWritesFor]
  | cons m ms ih =>
    intro s hdot
    rw [show moduleFilesFor resolve (m :: ms) =
          (match m.assets with
           | some as => as.map (fun a =>
               (⟨m.id, a.assetId ++ "." ++ a.ext, (resolve a.storageKey).getD []⟩ : MFile))
           | none => []) ++ moduleFilesFor resolve ms from rfl]
    rw [restoreModuleFiles_append]
    cases ha : m.assets with
    | none =>
      simp only [ha]
      rw [show restoreModuleFiles env [] s = ([], s) from rfl]
      rw [ih s (fun x hx => hdot x (by simp [hx]))]
      simp [moduleEntriesFor, moduleWritesFor, moduleAssetTotal, ha]
    | some as =>
      simp only [ha]
      have hm := hdot m (by simp)
      rw [ha] at hm
      simp only [Option.getD_some] at hm
      have hblock := restore_good_block env resolve m.id hsave as s hm
      rw [hblock]
      rw [ih ⟨s.calls + as.length, s.writes ++ assetWritesFor env resolve s.calls as⟩
            (fun x hx => hdot x (by simp [hx]))]
      simp only [moduleEntriesFor, moduleWritesFor, moduleAssetTotal, ha,
                 Option.getD_some, Prod.mk.injEq, ImpState.mk.injEq]
      refine ⟨trivial, ?_, ?_⟩
      · omega
      · simp [List.append_assoc]

theorem setIconAt_append : ∀ (qs : List Persona) (p : Persona) (ps : List Persona)
    (k : String),
    setIconAt (qs ++ p :: ps) qs.length k = qs ++ { p with icon := some k } :: ps := by
  intro qs
  induction qs with
  | nil => intro p ps k; rfl
  | cons q qs ih => intro p ps k; simp [setIconAt, ih]

theorem restore_personaFilesFor (env : ImportEnv) (resolve : Resolver)
    (hsave : ∀ n, env.saveOk n = true) :
    ∀ (ps qs : List Persona) (snap : Snapshot) (s : ImpState),
    snap.personas = some (qs ++ ps) →
    restorePersonaFiles env (personaFilesFor resolve qs.length ps) snap s =
      ({ snap with personas := some (qs ++ updatedPersonas env s.calls ps) },
       ⟨s.calls + countIcons ps, s.writes ++ personaWritesFor env resolve s.calls ps⟩) := by
  intro ps
  induction ps with
  | nil =>
    intro qs snap s hsnap
    simp only [personaFilesFor, restorePersonaFiles, updatedPersonas, countIcons,
               personaWritesFor]
    cases snap
    cases s
    simp only [List.append_nil] at hsnap ⊢
    simp [hsnap]
  | cons p ps ih =>
    intro qs snap s hsnap
    cases hic : p.icon with
    | none =>
      simp only [personaFilesFor, hic, updatedPersonas, countIcons, personaWritesFor]
      have hrec := ih (qs ++ [p]) snap s (by rw [hsnap]; simp)
      rw [show (qs ++ [p]).length = qs.length + 1 from by simp] at hrec
      rw [hrec]
      simp [List.append_assoc]
    | some ic =>
      cases hst : strStartsWith ic "assets/" with
      | false =>
        simp only [personaFilesFor, hic, hst, updatedPersonas, countIcons,
                   personaWritesFor, Bool.false_eq_true, if_false]
        have hrec := ih (qs ++ [p]) snap s (by rw [hsnap]; simp)
        rw [show (qs ++ [p]).length = qs.length + 1 from by simp] at hrec
        rw [hrec]
        simp [List.append_assoc]
      | true =>
        simp only [personaFilesFor, hic, hst, updatedPersonas, countIcons,
                   personaWritesFor, if_true]
        have hone : restoreOnePersona env ("persona-" ++ natToStr qs.length ++ ".png")
            ((resolve ic).getD []) snap s =
            ({ snap with
                personas := some (qs ++ { p with icon := some (env.mint s.calls) } :: ps) },
             ⟨s.calls + 1, s.writes ++ [(env.mint s.calls, (resolve ic).getD [])]⟩) := by
          unfold restoreOnePersona
          rw [parsePersona_png qs.length]
          unfold trySaveAsset
          rw [hsave s.calls]
          simp only [if_true, hsnap, Option.map_some', setIconAt_append]
        rw [show restorePersonaFiles env
              (("persona-" ++ natToStr qs.length ++ ".png", (resolve ic).getD []) ::
                personaFilesFor resolve (qs.length + 1) ps) snap s =
            restorePersonaFiles env (personaFilesFor resolve (qs.length + 1) ps)
              (restoreOnePersona env ("persona-" ++ natToStr qs.length ++ ".png")
                ((resolve ic).getD []) snap s).1
              (restoreOnePersona env ("persona-" ++ natToStr qs.length ++ ".png")
                ((resolve ic).getD []) snap s).2 from rfl]
        rw [hone]
        have hrec := ih (qs ++ [{ p with icon := some (env.mint s.calls) }])
          { snap with
             personas := some (qs ++ { p with icon := some (env.mint s.calls) } :: ps) }
          ⟨s.calls + 1, s.writes ++ [(env.mint s.calls, (resolve ic).getD [])]⟩
          (by simp)
        simp only [List.length_append, List.length_singleton] at hrec
        rw [hrec]
        simp only [Prod.mk.injEq, ImpState.mk.injEq, Snapshot.mk.injEq]
        refine ⟨?_, ?_, ?_⟩
        · simp [List.append_assoc]
        · omega
        · simp [List.append_assoc]

theorem restore_personaFiles_opt (env : ImportEnv) (resolve : Resolver)
    (hsave : ∀ n, env.saveOk n = true) (po : Option (List Persona))
    (snap : Snapshot) (s : ImpState) (hsnap : snap.personas = po) :
    restorePersonaFiles env (personaFilesFor resolve 0 (po.getD [])) snap s =
      ({ snap with personas := po.map (fun psl => updatedPersonas env s.calls psl) },
       ⟨s.calls + countIcons (po.getD []),
        s.writes ++ personaWritesFor env resolve s.calls (po.getD [])⟩) := by
  cases po with
  | none =>
    simp only [Option.getD_none, Option.map_none']
    show restorePersonaFiles env [] snap s = _
    cases snap
    cases s
    simp only at hsnap
    simp [restorePersonaFiles, hsnap, countIcons, personaWritesFor]
  | some psl =>
    simp only [Option.getD_some, Option.map_some']
    have := restore_personaFilesFor env resolve hsave psl [] snap s (by simpa using hsnap)
    simpa using this

theorem restoreBg_export (env : ImportEnv) (resolve : Resolver) (db : Database)
    (hsave : ∀ n, env.saveOk n = true) (snap : Snapshot) (s : ImpState)
    (hsnap : snap.customBackground = db.customBackground) :
    restoreBg env (exportBgFiles resolve db) snap s =
      ({ snap with customBackground := bgFinal env resolve s.calls db.customBackground },
       ⟨s.calls + (bgWritesFor env resolve s.calls db.customBackground).length,
        s.writes ++ bgWritesFor env resolve s.calls db.customBackground⟩) := by
  cases hcb : db.customBackground with
  | none =>
    rw [hcb] at hsnap
    unfold exportBgFiles
    rw [hcb]
    cases snap
    cases s
    simp only at hsnap
    simp [restoreBg, bgFinal, bgWritesFor, hsnap]
  | some bg =>
    rw [hcb] at hsnap
    unfold exportBgFiles
    rw [hcb]
    cases hst : strStartsWith bg "assets/" with
    | false =>
      simp only [Bool.false_eq_true, if_false]
      cases snap
      cases s
      simp only at hsnap
      simp [restoreBg, bgFinal, bgWritesFor, hst, hsnap]
    | true =>
      simp only [if_true]
      cases hres : resolve bg with
      | none =>
        cases snap
        cases s
        simp only at hsnap
        simp [restoreBg, bgFinal, bgWritesFor, hst, hres, hsnap]
      | some b =>
        unfold restoreBg trySaveAsset
        rw [hsave s.calls]
        simp [bgFinal, bgWritesFor, hst, hres]

theorem moduleEntriesFor_tags (env : ImportEnv) :
    ∀ (ms : List Module) (k : Nat) (e : String × MAsset),
    e ∈ moduleEntriesFor env k ms → e.1 ∈ ms.map Module.id := by
  intro ms
  induction ms with
  | nil => intro k e he; simp [moduleEntriesFor] at he
  | cons m ms ih =>
    intro k e he
    simp only [moduleEntriesFor] at he
    rcases List.mem_append.1 he with hb | hr
    · cases ha : m.assets with
      | none => rw [ha] at hb; simp at hb
      | some as =>
        rw [ha] at hb
        rcases List.mem_map.1 hb with ⟨x, _, hx⟩
        subst hx
        simp
    · have := ih _ e hr
      simp [this]

theorem filter_tagged_eq (mid : String) : ∀ l : List MAsset,
    (l.map (fun a => (mid, a))).filter (fun g => g.1 = mid) = l.map (fun a => (mid, a)) := by
  intro l
  induction l with
  | nil => rfl
  | cons a as ih => simp [ih]

theorem filter_tagged_ne (mid mid' : String) (h : mid ≠ mid') : ∀ l : List MAsset,
    (l.map (fun a => (mid, a))).filter (fun g => g.1 = mid') = [] := by
  intro l
  induction l with
  | nil => rfl
  | cons a as ih => simp [ih, h]

theorem filter_entries_notin (env : ImportEnv) :
    ∀ (ms : List Module) (k : Nat) (mid' : String), mid' ∉ ms.map Module.id →
    (moduleEntriesFor env k ms).filter (fun g => g.1 = mid') = [] := by
  intro ms k mid' hnotin
  rw [List.filter_eq_nil_iff]
  intro e he
  have := moduleEntriesFor_tags env ms k e he
  simp only [decide_eq_true_eq]
  intro hcontra
  exact hnotin (hcontra ▸ this)

theorem map_tagged_snd (mid : String) : ∀ l : List MAsset,
    ((l.map (fun a => (mid, a))).map (fun g => g.2)) = l := by
  intro l
  induction l with
  | nil => rfl
  | cons a as ih => simp [ih]

theorem reattach_computes (env : ImportEnv) :
    ∀ (ms : List Module) (k : Nat), ((ms.map Module.id).Nodup) →
    (ms.map stripModule).map (fun m =>
      if (((moduleEntriesFor env k ms).filter (fun g => g.1 = m.id)).map
            (fun g => g.2)).length > 0 then
        { m with assets := some (((moduleEntriesFor env k ms).filter
            (fun g => g.1 = m.id)).map (fun g => g.2)) }
      else m) =
    finalModules env k ms := by
  intro ms
  induction ms with
  | nil => intro k _; rfl
  | cons m ms ih =>
    intro k hnd
    have hnd2 := hnd
    rw [List.map_cons, List.nodup_cons] at hnd2
    obtain ⟨hnotin, hnd'⟩ := hnd2
    have hhead : (moduleEntriesFor env k (m :: ms)).filter
        (fun g => g.1 = m.id) =
        (match m.assets with
         | some as => (restoredAssetsFor env k as).map (fun a => (m.id, a))
         | none => []) := by
      have hrest2 : (moduleEntriesFor env (k + (m.assets.getD []).length) ms).filter
          (fun g => g.1 = m.id) = [] := filter_entries_notin env ms _ m.id hnotin
      simp only [moduleEntriesFor, List.filter_append, hrest2, List.append_nil]
      cases ha : m.assets with
      | none => rfl
      | some as => exact filter_tagged_eq m.id (restoredAssetsFor env k as)
    simp only [List.map_cons]
    rw [show finalModules env k (m :: ms) =
        (match m.assets with
         | some (a :: as) => { m with assets := some (restoredAssetsFor env k (a :: as)) }
         | some [] => { m with assets := none }
         | none => { m with assets := none }) ::
          finalModules env (k + (m.assets.getD []).length) ms from rfl]
    congr 1
    · rw [show (stripModule m).id = m.id from rfl, hhead]
      cases ha : m.assets with
      | none => simp [stripModule]
      | some as =>
        cases as with
        | nil => simp [restoredAssetsFor, stripModule]
        | cons a as' =>
          rw [map_tagged_snd m.id]
          simp only [restoredAssetsFor, List.length_cons, stripModule]
          rw [if_pos (by omega)]
    · refine Eq.trans (List.map_congr_left ?_) (ih (k + (m.assets.getD []).length) hnd')
      intro x hx
      rcases List.mem_map.1 hx with ⟨m₀, hm₀, hxe⟩
      have hne : m.id ≠ x.id := by
        intro hc
        apply hnotin
        rw [hc, ← hxe, show (stripModule m₀).id = m₀.id from rfl]
        exact List.mem_map.2 ⟨m₀, hm₀, rfl⟩
      have hsplit : (moduleEntriesFor env k (m :: ms)).filter (fun g => g.1 = x.id) =
          (moduleEntriesFor env (k + (m.assets.getD []).length) ms).filter
            (fun g => g.1 = x.id) := by
        simp only [moduleEntriesFor, List.filter_append]
        cases ha : m.assets with
        | none => simp
        | some as =>
          rw [filter_tagged_ne m.id x.id hne]
          simp
      rw [hsplit]

theorem importSettings_run (env : ImportEnv) (zip : Archive) (snap0 : Snapshot)
    (preserve : Bool) (D : Database) (hset : zip.settings = some snap0) :
    importSettings env (some zip) true preserve D =
      assembleImport D preserve
        (restoreModuleFiles env zip.moduleFiles ⟨0, []⟩).1
        (restoreBg env zip.bgFiles
          (restorePersonaFiles env zip.personaFiles snap0
            (restoreModuleFiles env zip.moduleFiles ⟨0, []⟩).2).1
          (restorePersonaFiles env zip.personaFiles snap0
            (restoreModuleFiles env zip.moduleFiles ⟨0, []⟩).2).2).1
        (restoreBg env zip.bgFiles
          (restorePersonaFiles env zip.personaFiles snap0
            (restoreModuleFiles env zip.moduleFiles ⟨0, []⟩).2).1
          (restorePersonaFiles env zip.personaFiles snap0
            (restoreModuleFiles env zip.moduleFiles ⟨0, []⟩).2).2).2.writes := by
  simp [importSettings, hset, assembleImport]

theorem import_export_computes (env : ImportEnv) (resolve : Resolver) (D : Database)
    (excl preserve : Bool) (now : String)
    (hsave : ∀ n, env.saveOk n = true)
    (hnd : ((D.modules.getD []).map Module.id).Nodup)
    (hWF : ∀ m ∈ D.modules.getD [], ∀ a ∈ m.assets.getD [], assetWFB resolve a = true)
    (hpi : ∀ p ∈ D.personas.getD [], ∀ ic, p.icon = some ic →
      strStartsWith ic "assets/" = true → (resolve ic).isSome = true) :
    importSettings env (some (exportSettings D excl resolve now)) true preserve D =
      ⟨none, some (expectedFinal env resolve D excl preserve),
       expectedWrites env resolve D⟩ := by
  have hdots : ∀ m ∈ D.modules.getD [], ∀ a ∈ m.assets.getD [],
      ∀ c ∈ a.ext.toList, c ≠ '.' :=
    fun m hm a ha => (assetWFB_spec (hWF m hm a ha)).2.2.2.1
  have h1 : restoreModuleFiles env (exportSettings D excl resolve now).moduleFiles
      ⟨0, []⟩ =
      (moduleEntriesFor env 0 (D.modules.getD []),
       ⟨moduleAssetTotal (D.modules.getD []),
        moduleWritesFor env resolve 0 (D.modules.getD [])⟩) := by
    show restoreModuleFiles env (exportModuleFiles resolve D) ⟨0, []⟩ = _
    rw [exportModuleFiles_good resolve D hnd hWF,
        restore_moduleFilesFor env resolve hsave _ ⟨0, []⟩ hdots]
    simp
  have h2 : restorePersonaFiles env (exportSettings D excl resolve now).personaFiles
      (makeSnapshot D excl now)
      ⟨moduleAssetTotal (D.modules.getD []),
       moduleWritesFor env resolve 0 (D.modules.getD [])⟩ =
      ({ makeSnapshot D excl now with
          personas := D.personas.map (fun psl =>
            updatedPersonas env (moduleAssetTotal (D.modules.getD [])) psl) },
       ⟨moduleAssetTotal (D.modules.getD []) + countIcons (D.personas.getD []),
        moduleWritesFor env resolve 0 (D.modules.getD []) ++
          personaWritesFor env resolve (moduleAssetTotal (D.modules.getD []))
            (D.personas.getD [])⟩) := by
    show restorePersonaFiles env (exportPersonaFiles resolve D) _ _ = _
    rw [exportPersonaFiles_good resolve D hpi]
    exact restore_personaFiles_opt env resolve hsave D.personas _ _ rfl
  have h3 : restoreBg env (exportSettings D excl resolve now).bgFiles
      ({ makeSnapshot D excl now with
          personas := D.personas.map (fun psl =>
            updatedPersonas env (moduleAssetTotal (D.modules.getD [])) psl) })
      ⟨moduleAssetTotal (D.modules.getD []) + countIcons (D.personas.getD []),
       moduleWritesFor env resolve 0 (D.modules.getD []) ++
         personaWritesFor env resolve (moduleAssetTotal (D.modules.getD []))
           (D.personas.getD [])⟩ =
      ({ { makeSnapshot D excl now with
            personas := D.personas.map (fun psl =>
              updatedPersonas env (moduleAssetTotal (D.modules.getD [])) psl) } with
          customBackground := bgFinal env resolve
            (moduleAssetTotal (D.modules.getD []) + countIcons (D.personas.getD []))
            D.customBackground },
       ⟨moduleAssetTotal (D.modules.getD []) + countIcons (D.personas.getD []) +
          (bgWritesFor env resolve
            (moduleAssetTotal (D.modules.getD []) + countIcons (D.personas.getD []))
            D.customBackground).length,
        moduleWritesFor env resolve 0 (D.modules.getD []) ++
          personaWritesFor env resolve (moduleAssetTotal (D.modules.getD []))
            (D.personas.getD []) ++
          bgWritesFor env resolve
            (moduleAssetTotal (D.modules.getD []) + countIcons (D.personas.getD []))
            D.customBackground⟩) := by
    show restoreBg env (exportBgFiles resolve D) _ _ = _
    exact restoreBg_export env resolve D hsave _ _ rfl
  rw [importSettings_run env _ (makeSnapshot D excl now) preserve D rfl]
  simp only [h1, h2, h3]
  unfold assembleImport expectedWrites expectedFinal
  by_cases hacc : (preserve && D.account.isSome) = true
  · simp only [hacc, if_true]
    cases hmod : D.modules with
    | none =>
      simp [reattachAssets, snapToDb, makeSnapshot, hmod]
    | some msl =>
      have hnd' : (msl.map Module.id).Nodup := by
        rw [hmod] at hnd
        simpa using hnd
      have hre := reattach_computes env msl 0 hnd'
      simp only [reattachAssets, snapToDb, makeSnapshot, hmod, Option.getD_some,
                 Option.map_some']
      rw [← hre]
      rfl
  · rw [Bool.not_eq_true] at hacc
    simp only [hacc, Bool.false_eq_true, if_false]
    cases hmod : D.modules with
    | none =>
      simp [reattachAssets, snapToDb, makeSnapshot, hmod]
    | some msl =>
      have hnd' : (msl.map Module.id).Nodup := by
        rw [hmod] at hnd
        simpa using hnd
      have hre := reattach_computes env msl 0 hnd'
      simp only [reattachAssets, snapToDb, makeSnapshot, hmod, Option.getD_some,
                 Option.map_some']
      rw [← hre]
      rfl

theorem assets_restored (env : ImportEnv) (resolve : Resolver)
    (w : List (String × Bytes)) :
    ∀ (as : List MAsset) (j : Nat),
    (∀ a ∈ as, assetWFB resolve a = true) →
    (∀ x ∈ assetWritesFor env resolve j as, x ∈ w) →
    listAll2 (assetRestoredB w resolve) as (restoredAssetsFor env j as) = true := by
  intro as
  induction as with
  | nil => intro j _ _; rfl
  | cons a as ih =>
    intro j hWF hw
    simp only [restoredAssetsFor, listAll2, Bool.and_eq_true]
    constructor
    · obtain ⟨b, hb⟩ := Option.isSome_iff_exists.1 (assetWFB_spec (hWF a (by simp))).2.2.2.2.2
      have hmem : (env.mint j, b) ∈ w := by
        have := hw (env.mint j, (resolve a.storageKey).getD []) (by simp [assetWritesFor])
        rwa [hb] at this
      simp only [assetRestoredB, hb, Bool.and_eq_true, beq_self_eq_true,
                 memW, decide_eq_true_eq]
      exact ⟨⟨trivial, trivial⟩, hmem⟩
    · exact ih (j + 1) (fun x hx => hWF x (by simp [hx]))
        (fun x hx => hw x (by simp [assetWritesFor, hx]))

theorem modules_restored (env : ImportEnv) (resolve : Resolver)
    (w : List (String × Bytes)) :
    ∀ (ms : List Module) (k : Nat),
    (∀ m ∈ ms, ∀ a ∈ m.assets.getD [], assetWFB resolve a = true) →
    (∀ x ∈ moduleWritesFor env resolve k ms, x ∈ w) →
    listAll2 (moduleRestoredB w resolve) ms (finalModules env k ms) = true := by
  intro ms
  induction ms with
  | nil => intro k _ _; rfl
  | cons m ms ih =>
    intro k hWF hw
    simp only [finalModules, listAll2, Bool.and_eq_true]
    constructor
    · cases ha : m.assets with
      | none => simp [moduleRestoredB, assetsRestoredB, ha]
      | some as =>
        cases as with
        | nil => simp [moduleRestoredB, assetsRestoredB, ha]
        | cons a as' =>
          simp only [moduleRestoredB, ha, Bool.and_eq_true, beq_self_eq_true,
                     true_and]
          show listAll2 (assetRestoredB w resolve) (a :: as')
            (restoredAssetsFor env k (a :: as')) = true
          apply assets_restored env resolve w (a :: as') k
          · intro x hx
            have := hWF m (by simp) x
            rw [ha] at this
            exact this (by simpa using hx)
          · intro x hx
            apply hw
            simp only [moduleWritesFor, ha, List.mem_append]
            exact Or.inl hx
    · refine ih (k + (m.assets.getD []).length) (fun x hx => hWF x (by simp [hx])) ?_
      intro x hx
      apply hw
      simp only [moduleWritesFor, List.mem_append]
      exact Or.inr hx

theorem personas_restored (env : ImportEnv) (resolve : Resolver)
    (w : List (String × Bytes)) :
    ∀ (ps : List Persona) (k : Nat),
    (∀ p ∈ ps, ∀ ic, p.icon = some ic → strStartsWith ic "assets/" = true →
      (resolve ic).isSome = true) →
    (∀ x ∈ personaWritesFor env resolve k ps, x ∈ w) →
    listAll2 (personaRestoredB w resolve) ps (updatedPersonas env k ps) = true := by
  intro ps
  induction ps with
  | nil => intro k _ _; rfl
  | cons p ps ih =>
    intro k hres hw
    cases hic : p.icon with
    | none =>
      simp only [updatedPersonas, hic, listAll2, Bool.and_eq_true]
      refine ⟨?_, ih k (fun x hx => hres x (by simp [hx]))
        (fun x hx => hw x (by simp [personaWritesFor, hic, hx]))⟩
      simp [personaRestoredB, hic]
    | some ic =>
      cases hst : strStartsWith ic "assets/" with
      | false =>
        simp only [updatedPersonas, hic, hst, Bool.false_eq_true, if_false,
                   listAll2, Bool.and_eq_true]
        refine ⟨?_, ih k (fun x hx => hres x (by simp [hx]))
          (fun x hx => hw x (by simp [personaWritesFor, hic, hst, hx]))⟩
        simp [personaRestoredB, hic, hst]
      | true =>
        simp only [updatedPersonas, hic, hst, if_true, listAll2, Bool.and_eq_true]
        constructor
        · obtain ⟨b, hb⟩ := Option.isSome_iff_exists.1 (hres p (by simp) ic hic hst)
          have hmem : (env.mint k, b) ∈ w := by
            have := hw (env.mint k, (resolve ic).getD [])
              (by simp [personaWritesFor, hic, hst])
            rwa [hb] at this
          simp only [personaRestoredB, hic, hst, if_true, hb, Bool.and_eq_true,
                     beq_self_eq_true, memW, decide_eq_true_eq]
          exact ⟨⟨trivial, trivial⟩, hmem⟩
        · exact ih (k + 1) (fun x hx => hres x (by simp [hx]))
            (fun x hx => hw x (by simp [personaWritesFor, hic, hst, hx]))

theorem bg_restored (env : ImportEnv) (resolve : Resolver)
    (w : List (String × Bytes)) (k : Nat) (ob : Option String)
    (hres : ∀ bg, ob = some bg → strStartsWith bg "assets/" = true →
      (resolve bg).isSome = true)
    (hw : ∀ x ∈ bgWritesFor env resolve k ob, x ∈ w) :
    bgRestoredB w resolve ob (bgFinal env resolve k ob) = true := by
  cases ob with
  | none => rfl
  | some bg =>
    cases hst : strStartsWith bg "assets/" with
    | false => simp [bgRestoredB, bgFinal, hst]
    | true =>
      obtain ⟨b, hb⟩ := Option.isSome_iff_exists.1 (hres bg rfl hst)
      have hmem : (env.mint k, b) ∈ w := by
        apply hw
        simp [bgWritesFor, hst, hb]
      simp only [bgRestoredB, bgFinal, hst, if_true, hb, memW, decide_eq_true_eq]
      exact hmem

/-- C1 counterexample: exporting a database whose single module asset has
`assetId = "icon.png"` (already ending in its extension) and importing the
archive back commits a database whose asset tuple has `assetId = "icon"` —
the import splits the filename at its last dot — so a settings field differs
beyond storage-key identity and the round-trip claim as stated is false. -/
theorem c1_counterexample :
    c1cexRun.committed =
      some ⟨none, none, none,
            some [⟨"m1", some [⟨"icon", "n0", "png"⟩], "r"⟩], none, none, []⟩ ∧
    roundTripClaimB true c1cexArch c1cexRun c1cexDb
      ⟨none, none, none,
       some [⟨"m1", some [⟨"icon", "n0", "png"⟩], "r"⟩], none, none, []⟩ = false := by
  exact ⟨by decide, by decide⟩

/-- C1 (amended): when every module asset is well formed (truthy id and key,
non-empty dot-free extension, id not already ending in `.<ext>`) and
resolves, every local persona icon and local custom background resolves, the
module ids are distinct and every `saveAsset` call succeeds, then importing
`export(D)` back into `D` commits a database equal to `D` on `characters`,
`characterOrder` and all passthrough fields, with `account` preserved when
the operator chose so (and otherwise the backup's account taking effect),
and with every module asset, persona icon and custom background restored
byte-for-byte under its freshly minted storage key. -/
theorem c1_round_trip (env : ImportEnv) (resolve : Resolver) (D : Database)
    (excl preserve : Bool) (now : String)
    (hsave : ∀ n, env.saveOk n = true)
    (hnd : ((D.modules.getD []).map Module.id).Nodup)
    (hWF : ∀ m ∈ D.modules.getD [], ∀ a ∈ m.assets.getD [],
      assetWFB resolve a = true)
    (hpi : ∀ p ∈ D.personas.getD [], ∀ ic, p.icon = some ic →
      strStartsWith ic "assets/" = true → (resolve ic).isSome = true)
    (hbgres : ∀ bg, D.customBackground = some bg →
      strStartsWith bg "assets/" = true → (resolve bg).isSome = true) :
    ∃ D',
      (importSettings env (some (exportSettings D excl resolve now))
        true preserve D).committed = some D' ∧
      D'.characters = D.characters ∧
      D'.characterOrder = D.characterOrder ∧
      D'.extra = D.extra ∧
      D'.account = (if preserve then D.account else if excl then none else D.account) ∧
      optAll2 (fun a b => listAll2 (moduleRestoredB
          (importSettings env (some (exportSettings D excl resolve now))
            true preserve D).writes resolve) a b) D.modules D'.modules = true ∧
      optAll2 (fun a b => listAll2 (personaRestoredB
          (importSettings env (some (exportSettings D excl resolve now))
            true preserve D).writes resolve) a b) D.personas D'.personas = true ∧
      bgRestoredB
        (importSettings env (some (exportSettings D excl resolve now))
          true preserve D).writes resolve
        D.customBackground D'.customBackground = true := by
  rw [import_export_computes env resolve D excl preserve now hsave hnd hWF hpi]
  refine ⟨expectedFinal env resolve D excl preserve, rfl, rfl, rfl, rfl,
          ?_, ?_, ?_, ?_⟩
  · show (expectedFinal env resolve D excl preserve).account = _
    simp only [expectedFinal]
    cases preserve with
    | true => cases h : D.account <;> simp [h] <;> cases excl <;> simp
    | false => simp
  · show optAll2 _ D.modules (expectedFinal env resolve D excl preserve).modules = true
    simp only [expectedFinal]
    cases hmod : D.modules with
    | none => rfl
    | some msl =>
      simp only [Option.map_some']
      show listAll2 (moduleRestoredB (expectedWrites env resolve D) resolve)
        msl (finalModules env 0 msl) = true
      apply modules_restored
      · intro m hm
        have := hWF m
        rw [hmod] at this
        exact this (by simpa using hm)
      · intro x hx
        unfold expectedWrites
        rw [hmod]
        simp only [Option.getD_some, List.mem_append]
        exact Or.inl (Or.inl hx)
  · show optAll2 _ D.personas (expectedFinal env resolve D excl preserve).personas = true
    simp only [expectedFinal]
    cases hper : D.personas with
    | none => rfl
    | some psl =>
      simp only [Option.map_some']
      show listAll2 (personaRestoredB (expectedWrites env resolve D) resolve)
        psl (updatedPersonas env (moduleAssetTotal (D.modules.getD [])) psl) = true
      apply personas_restored
      · intro p hp
        have := hpi p
        rw [hper] at this
        exact this (by simpa using hp)
      · intro x hx
        unfold expectedWrites
        rw [hper]
        simp only [Option.getD_some, List.mem_append]
        exact Or.inl (Or.inr hx)
  · show bgRestoredB (expectedWrites env resolve D) _ _
      (expectedFinal env resolve D excl preserve).customBackground = true
    simp only [expectedFinal]
    apply bg_restored
    · exact hbgres
    · intro x hx
      unfold expectedWrites
      simp only [List.mem_append]
      exact Or.inr hx

/-- C1 witness: a concrete database with one module asset, one local persona
icon, a local custom background, an account and a passthrough field
satisfies every hypothesis of the amended round trip. -/
theorem c1_witness :
    (∀ n, okImportEnv.saveOk n = true) ∧
    ((c1witDb.modules.getD []).map Module.id).Nodup ∧
    (∀ m ∈ c1witDb.modules.getD [], ∀ a ∈ m.assets.getD [],
      assetWFB c1witResolve a = true) ∧
    (∃ D',
      (importSettings okImportEnv
        (some (exportSettings c1witDb true c1witResolve "2025-01-01"))
        true true c1witDb).committed = some D' ∧
      D'.characters = c1witDb.characters ∧
      D'.characterOrder = c1witDb.characterOrder ∧
      D'.extra = c1witDb.extra ∧
      D'.account = (if true then c1witDb.account
                    else if true then none else c1witDb.account) ∧
      optAll2 (fun a b => listAll2 (moduleRestoredB
          (importSettings okImportEnv
            (some (exportSettings c1witDb true c1witResolve "2025-01-01"))
            true true c1witDb).writes c1witResolve) a b)
        c1witDb.modules D'.modules = true ∧
      optAll2 (fun a b => listAll2 (personaRestoredB
          (importSettings okImportEnv
            (some (exportSettings c1witDb true c1witResolve "2025-01-01"))
            true true c1witDb).writes c1witResolve) a b)
        c1witDb.personas D'.personas = true ∧
      bgRestoredB
        (importSettings okImportEnv
          (some (exportSettings c1witDb true c1witResolve "2025-01-01"))
          true true c1witDb).writes c1witResolve
        c1witDb.customBackground D'.customBackground = true) := by
  have hpi : ∀ p ∈ c1witDb.personas.getD [], ∀ ic, p.icon = some ic →
      strStartsWith ic "assets/" = true → (c1witResolve ic).isSome = true := by
    intro p hp ic hic _
    simp only [c1witDb, Option.getD_some, List.mem_singleton] at hp
    subst hp
    simp only [Option.some.injEq] at hic
    subst hic
    decide
  have hbgres : ∀ bg, c1witDb.customBackground = some bg →
      strStartsWith bg "assets/" = true → (c1witResolve bg).isSome = true := by
    intro bg hbg _
    simp only [c1witDb, Option.some.injEq] at hbg
    subst hbg
    decide
  exact ⟨fun _ => rfl, by decide, by decide,
    c1_round_trip okImportEnv c1witResolve c1witDb true true "2025-01-01"
      (fun _ => rfl) (by decide) (by decide) hpi hbgres⟩

end Risu
